import Mathlib

/-!
A verification development for the Bulk Structured Data Generator repository.

This file gives a shallow embedding, in Lean 4, of the deterministic core of
the repository: the 16-point JSON-LD rule validator (`src/validator.py`),
the type-assignment and service-hierarchy logic (`src/processor.py`), and the
knowledge tables they consult (`src/knowledge.py`).  Theorems about the
embedding settle the frozen specification claims.

Modelling conventions, all noted where used:
* Parsed JSON documents are values of the `Json` inductive.  Python dicts are
  association lists in insertion order; keys of a dict produced by
  `json.loads` are unique.  JSON numbers are modelled as integers (no claim
  involves float values).
* The validator receives the raw text only through `json.loads(raw_json)`
  and the test `"<script" in raw_json.lower()`.  The embedding therefore
  carries the raw text as a `RawText`: the parse outcome plus that flag.
* Python statements that can raise (`re.match` on a non-string, set
  membership of an unhashable value, iterating a non-iterable `@graph`,
  calling `.items()` on a non-dict) are modelled with `Option`: a `none`
  result of `validate_jsonld` models an uncaught exception escaping the
  call.  Caught exceptions (the Rule 1 `json.JSONDecodeError`) return a
  result as in the source.
* Regex `\d` / `\D` are modelled as ASCII digits (the claims only exercise
  ASCII data); `$` is modelled as end-of-string or just before one final
  newline, as in Python `re`.
* Message strings follow the source but drop the single-quote punctuation
  around interpolated values; no claim depends on message text.
-/

/-- A parsed JSON value, as produced by Python `json.loads`. -/
inductive Json where
  | null : Json
  | bool : Bool → Json
  | num  : Int → Json
  | str  : String → Json
  | arr  : List Json → Json
  | obj  : List (String × Json) → Json
deriving Repr

/-- A Python dict parsed from JSON: an association list in insertion order. -/
abbrev JObj := List (String × Json)

mutual

/-- Boolean equality on `Json`, used to build decidable equality. -/
def jeq : Json → Json → Bool
  | .null, .null => true
  | .bool a, .bool b => a == b
  | .num a, .num b => a == b
  | .str a, .str b => a == b
  | .arr a, .arr b => jeqL a b
  | .obj a, .obj b => jeqO a b
  | _, _ => false

def jeqL : List Json → List Json → Bool
  | [], [] => true
  | x :: xs, y :: ys => jeq x y && jeqL xs ys
  | _, _ => false

def jeqO : JObj → JObj → Bool
  | [], [] => true
  | (k, v) :: xs, (k2, v2) :: ys => k == k2 && jeq v v2 && jeqO xs ys
  | _, _ => false

end

mutual

theorem jeq_iff : ∀ (a b : Json), jeq a b = true ↔ a = b
  | .null, b => by cases b <;> simp [jeq]
  | .bool x, b => by cases b <;> simp [jeq]
  | .num x, b => by cases b <;> simp [jeq]
  | .str x, b => by cases b <;> simp [jeq]
  | .arr xs, b => by
      cases b <;> simp [jeq]
      exact jeqL_iff xs _
  | .obj kvs, b => by
      cases b <;> simp [jeq]
      exact jeqO_iff kvs _

theorem jeqL_iff : ∀ (a b : List Json), jeqL a b = true ↔ a = b
  | [], b => by cases b <;> simp [jeqL]
  | x :: xs, [] => by simp [jeqL]
  | x :: xs, y :: ys => by
      simp [jeqL, Bool.and_eq_true, jeq_iff x y, jeqL_iff xs ys]

theorem jeqO_iff : ∀ (a b : JObj), jeqO a b = true ↔ a = b
  | [], b => by cases b <;> simp [jeqO]
  | x :: xs, [] => by simp [jeqO]
  | (k, v) :: xs, (k2, v2) :: ys => by
      simp [jeqO, Bool.and_eq_true, jeq_iff v v2, jeqO_iff xs ys, Prod.ext_iff]

end

instance : DecidableEq Json := fun a b => decidable_of_iff _ (jeq_iff a b)

instance : Inhabited Json := ⟨Json.null⟩

/-- Python dict lookup `d.get(k)`: value of the first binding of `k`. -/
def lookupKey : JObj → String → Option Json
  | [], _ => none
  | (k, v) :: rest, key => if k = key then some v else lookupKey rest key

/-- Python `d.get(k, default)`. -/
def getO (o : JObj) (k : String) (d : Json) : Json := (lookupKey o k).getD d

/-- Python `k in d` for a dict. -/
def hasKeyO (o : JObj) (k : String) : Bool := (lookupKey o k).isSome

/-- Python dict assignment `d[k] = v`: replaces the binding of `k` in place,
or appends it (insertion order) when `k` is absent. -/
def setKey : JObj → String → Json → JObj
  | [], key, v => [(key, v)]
  | (k, w) :: rest, key, v =>
      if k = key then (key, v) :: rest else (k, w) :: setKey rest key v

/-- Python truthiness of a parsed JSON value. -/
def Json.truthy : Json → Bool
  | .null => false
  | .bool b => b
  | .num n => n != 0
  | .str s => s != ""
  | .arr xs => !xs.isEmpty
  | .obj o => !o.isEmpty

/-- Whether a `Json` value is a Python `str`. -/
def Json.isStr : Json → Bool
  | .str _ => true
  | _ => false

/-- Whether a `Json` value is a Python `dict`. -/
def Json.isObj : Json → Bool
  | .obj _ => true
  | _ => false

/-- Python `str.lower()` (character-wise; adequate for the data involved). -/
def strLower (s : String) : String := String.mk (s.data.map Char.toLower)

/-- `pre` is a literal prefix of `s` (Python `s.startswith(pre)`). -/
def strStartsWith (s pre : String) : Bool := pre.data.isPrefixOf s.data

/-- Helper for `strContains`: does `needle` occur in the character list? -/
def strContainsAux (needle : List Char) : List Char → Bool
  | [] => needle.isEmpty
  | c :: rest => needle.isPrefixOf (c :: rest) || strContainsAux needle rest

/-- Occurrence of `needle` as a contiguous substring of `hay`
(Python `needle in hay` on strings). -/
def strContains (hay needle : String) : Bool :=
  strContainsAux needle.data hay.data

/-- Python `s.rstrip(chars)` restricted to one strip character. -/
def rstripChar (s : String) (c : Char) : String :=
  String.mk (s.data.reverse.dropWhile (· = c)).reverse

/-- Python `s.strip(chars)` restricted to one strip character. -/
def stripChar (s : String) (c : Char) : String :=
  String.mk ((s.data.dropWhile (· = c)).reverse.dropWhile (· = c)).reverse

/-- Helper for `splitOnChar`: split a character list at every separator. -/
def splitOnCharAux (c : Char) : List Char → List (List Char)
  | [] => [[]]
  | x :: rest =>
      let r := splitOnCharAux c rest
      if x = c then [] :: r
      else match r with
        | [] => [[x]]
        | h :: t => (x :: h) :: t

/-- Python `s.split(sep)` for a one-character separator. -/
def splitOnChar (c : Char) (s : String) : List String :=
  (splitOnCharAux c s.data).map String.mk

/-- `re.sub(r"\D", "", s)`: keep only the digits (`\d` modelled as ASCII). -/
def stripNonDigits (s : String) : String := String.mk (s.data.filter Char.isDigit)

/-- `re.match(r"^\+\d{10,15}$", s)` from Rule 10 of `src/validator.py`.
`$` also matches just before one final newline, as in Python `re`. -/
def e164Match (s : String) : Bool :=
  let body := if s.data.getLast? = some '\n' then s.data.dropLast else s.data
  match body with
  | '+' :: ds => ds.all Char.isDigit && decide (10 ≤ ds.length) && decide (ds.length ≤ 15)
  | _ => false

/-- `_is_valid_date` from `src/validator.py`:
`re.match(r"^\d{4}-\d{2}-\d{2}(T\d{2}:\d{2}:\d{2})?", val)`.  The group is
optional and the pattern is unanchored at the end, so it succeeds exactly
when the value starts with `dddd-dd-dd`. -/
def is_valid_date (s : String) : Bool :=
  match s.data with
  | a :: b :: c :: d :: '-' :: e :: f :: '-' :: g :: h :: _ =>
      [a, b, c, d, e, f, g, h].all Char.isDigit
  | _ => false

/-! ### Knowledge tables, from `src/knowledge.py`

The Python sources use sets and dicts; they are embedded as lists in the
literal order of the source.  Only membership and lookup are used, except
that Rule 16 iterates two of the sets: Python set iteration order is
hash-dependent, so the issue order inside Rule 16 is fixed here to the
literal order (no claim depends on it). -/

def VALID_TYPES : List String :=
  ["Organization", "LocalBusiness", "Service", "WebContent", "AboutPage",
   "Person", "PostalAddress", "GeoCoordinates", "OpeningHoursSpecification",
   "City", "Place", "AdministrativeArea", "Country", "State",
   "OfferCatalog", "Offer", "ImageObject", "Thing",
   "CollegeOrUniversity", "EducationalOrganization",
   "Dentist", "LegalService", "MedicalBusiness", "ProfessionalService",
   "AutoRepair", "HomeAndConstructionBusiness"]

def MAJOR_TYPES : List String :=
  ["Organization", "LocalBusiness", "Service", "WebContent", "AboutPage", "Person"]

def DEPRECATED_TYPES : List (String × String) :=
  [("WebPage", "Do not use - implied by URL. Use WebContent for content pages"),
   ("WebSite", "Do not use - implied by domain")]

def DEPRECATED_PROPERTIES : List (String × String) :=
  [("serviceArea", "areaServed"),
   ("significantLink", "relatedLink or remove"),
   ("significantLinks", "relatedLink or remove"),
   ("isBasedOnUrl", "isBasedOn")]

def INVALID_PROPERTIES : List (String × List String) :=
  [("Service", ["keywords", "email", "telephone", "address", "foundingDate",
                "datePublished", "dateModified", "dateCreated"]),
   ("Person", ["keywords", "logo"])]

def VALID_DUAL_TYPES : List String :=
  ["WebContent|Service", "WebContent|Person",
   "WebContent|Organization", "WebContent|LocalBusiness"]

def INVALID_DUAL_TYPES : List (String × String) :=
  [("Service|Service", "Same type twice"),
   ("Person|Person", "Same type twice"),
   ("Organization|LocalBusiness", "Use subOrganization relationship instead"),
   ("Service|WebContent", "Wrong order - container must be first"),
   ("Person|Service", "No logical container/entity relationship")]

def CONTAINER_ONLY_PROPERTIES : List String :=
  ["keywords", "datePublished", "dateModified", "dateCreated",
   "creator", "contributor", "maintainer",
   "contentLocation", "locationCreated", "countryOfOrigin", "headline"]

def NESTED_ONLY_PROPERTIES : List String :=
  ["provider", "brand", "areaServed", "isRelatedTo", "isSimilarTo",
   "serviceType", "hasOfferCatalog",
   "worksFor", "givenName", "familyName", "jobTitle", "alumniOf", "knowsAbout",
   "parentOrganization", "geo", "hasMap", "openingHoursSpecification"]

/-! ### Serialization (Python `json.dumps`, default options)

Used only to model re-validating the serialization of a returned document:
what matters is the parse outcome (the document itself) and whether the text
contains a script tag.  Escaping follows `json.dumps` with `ensure_ascii`
(astral characters are escaped without surrogate pairing, a divergence no
claim can observe). -/

def lbraceChar : Char := Char.ofNat 123

def rbraceChar : Char := Char.ofNat 125

def hexDigitChar (n : Nat) : Char :=
  if n < 10 then Char.ofNat (48 + n) else Char.ofNat (87 + n)

def escChar (c : Char) : List Char :=
  if c = Char.ofNat 34 then [Char.ofNat 92, Char.ofNat 34]
  else if c = Char.ofNat 92 then [Char.ofNat 92, Char.ofNat 92]
  else if c = Char.ofNat 10 then [Char.ofNat 92, 'n']
  else if c = Char.ofNat 9 then [Char.ofNat 92, 't']
  else if c = Char.ofNat 13 then [Char.ofNat 92, 'r']
  else if c = Char.ofNat 8 then [Char.ofNat 92, 'b']
  else if c = Char.ofNat 12 then [Char.ofNat 92, 'f']
  else if c.toNat < 32 ∨ c.toNat > 126 then
    let n := c.toNat % 65536
    [Char.ofNat 92, 'u', hexDigitChar (n / 4096 % 16), hexDigitChar (n / 256 % 16),
     hexDigitChar (n / 16 % 16), hexDigitChar (n % 16)]
  else [c]

def escString (s : String) : List Char :=
  Char.ofNat 34 :: s.data.foldr (fun c acc => escChar c ++ acc) [Char.ofNat 34]

mutual

def dumpsC : Json → List Char
  | .null => "null".data
  | .bool true => "true".data
  | .bool false => "false".data
  | .num n => (toString n).data
  | .str s => escString s
  | .arr xs => '[' :: dumpsArr xs ++ [']']
  | .obj kvs => lbraceChar :: dumpsObjEntries kvs ++ [rbraceChar]

def dumpsArr : List Json → List Char
  | [] => []
  | [x] => dumpsC x
  | x :: y :: rest => dumpsC x ++ ',' :: ' ' :: dumpsArr (y :: rest)

def dumpsObjEntries : JObj → List Char
  | [] => []
  | [(k, v)] => escString k ++ ':' :: ' ' :: dumpsC v
  | (k, v) :: e :: rest =>
      escString k ++ ':' :: ' ' :: dumpsC v ++ ',' :: ' ' :: dumpsObjEntries (e :: rest)

end

def dumps (j : Json) : String := String.mk (dumpsC j)

/-! ### The rule validator, from `src/validator.py`

`validate_jsonld(raw_json, all_defined_ids)` is embedded rule by rule.  The
source mutates `parsed` in place through entity aliases; every mutation
(Rule 2 on `@context`, Rule 10 on `telephone`) replaces a string value by a
string value at an existing key, and no later rule reads those keys except
through shape-preserving traversals, so the embedding evaluates the rules on
the entity list extracted from the original document and threads the
document updates separately — observably the same behaviour. -/

/-- One validation issue: the `(rule_number, severity, message)` tuples of
the source, severity `"FAIL"` or `"WARN"`. -/
structure Issue where
  rule : Nat
  sev  : String
  msg  : String
deriving DecidableEq, Repr

/-- Approximate Python `str()` of a parsed JSON value, for the f-string
interpolations of the issue messages (exact for strings; containers are
rendered as JSON, Python would use `repr`; no claim depends on this). -/
def pyRender : Json → String
  | .str s => s
  | .num n => toString n
  | .bool true => "True"
  | .bool false => "False"
  | .null => "None"
  | j => dumps j

/-- Rule 1 issue (the Python message carries `json.JSONDecodeError` text). -/
def rule1Issue : Issue := ⟨1, "FAIL", "Invalid JSON syntax"⟩

/-- `_extract_entities`, top-level part: iterate `parsed["@graph"]` keeping
the dict members, or take the root itself.  A non-iterable `@graph` value
raises `TypeError` (`none`); iterating a string or a dict yields no dict
members. -/
def topEntities (parsed : JObj) : Option (List JObj) :=
  match lookupKey parsed "@graph" with
  | some (.arr items) =>
      some (items.filterMap fun it => match it with | .obj o => some o | _ => none)
  | some (.str _) => some []
  | some (.obj _) => some []
  | some _ => none
  | none => some [parsed]

/-- `_extract_entities`, nested part: the dict-valued properties of one
entity that declare a `@type`, in binding order. -/
def nestedOfEntity (e : JObj) : List JObj :=
  e.filterMap fun kv => match kv.2 with
    | .obj o => if hasKeyO o "@type" then some o else none
    | _ => none

/-- `_extract_entities(parsed)`: top-level entities followed by one synthetic
pass over them (the loop snapshots the list, so values nested two levels deep
are not discovered).  `none` models the `TypeError`/`AttributeError` raised
on a non-dict document or a non-iterable `@graph`. -/
def extract_entities (parsed : JObj) : Option (List JObj) :=
  (topEntities parsed).map fun es => es ++ es.foldr (fun e acc => nestedOfEntity e ++ acc) []

def CANONICAL_CONTEXT : String := "https://schema.org"

def LEGACY_CONTEXTS : List String :=
  ["http://schema.org", "http://www.schema.org", "https://www.schema.org"]

def ctxFixMsg : String := "Fixed @context to https://schema.org"

/-- Rule 2: `@context` must be the canonical HTTPS root; legacy variants are
normalized in place with an auto-fix.  Returns (issues, fixes, document). -/
def rule2 (parsed : JObj) : List Issue × List String × JObj :=
  let context := getO parsed "@context" (.str "")
  if context.truthy = false then
    ([⟨2, "FAIL", "@context is missing"⟩], [], parsed)
  else if context = .str CANONICAL_CONTEXT then ([], [], parsed)
  else if LEGACY_CONTEXTS.any (fun l => context = .str l) then
    ([], [ctxFixMsg], setKey parsed "@context" (.str CANONICAL_CONTEXT))
  else
    ([⟨2, "FAIL", "@context is " ++ pyRender context ++ ", expected https://schema.org"⟩],
     [], parsed)

/-- Sequence a fallible per-entity rule over the entity list, concatenating
issues in order; a raised exception (`none`) aborts the whole evaluation. -/
def seqIssues (f : JObj → Option (List Issue)) : List JObj → Option (List Issue)
  | [] => some []
  | e :: rest => do
      let a ← f e
      let b ← seqIssues f rest
      pure (a ++ b)

/-- Rule 3 for one entity: a truthy declared `@type` must be in the
allow-list.  Membership of an unhashable value (list/dict) in the Python set
raises `TypeError`. -/
def rule3_entity (e : JObj) : Option (List Issue) :=
  let etype := getO e "@type" (.str "")
  if etype.truthy = false then some []
  else match etype with
    | .str s =>
        if s ∈ VALID_TYPES then some []
        else some [⟨3, "FAIL", "Fabricated @type: " ++ s⟩]
    | .arr _ => none
    | .obj _ => none
    | other => some [⟨3, "FAIL", "Fabricated @type: " ++ pyRender other⟩]

/-- Rule 4 for one entity: a major-typed entity must carry a truthy `@id`.
The set-membership test hashes `@type` first, so an unhashable `@type`
raises even when falsy. -/
def rule4_entity (e : JObj) : Option (List Issue) :=
  match lookupKey e "@type" with
  | some (.arr _) => none
  | some (.obj _) => none
  | some (.str s) =>
      if s ∈ MAJOR_TYPES ∧ (getO e "@id" .null).truthy = false then
        some [⟨4, "FAIL", s ++ " is missing @id"⟩]
      else some []
  | _ => some []

/-- Rule 5 for one entity: no deprecated `@type`. -/
def rule5_entity (e : JObj) : Option (List Issue) :=
  match getO e "@type" (.str "") with
  | .str s =>
      match DEPRECATED_TYPES.lookup s with
      | some advice => some [⟨5, "FAIL", "Deprecated type " ++ s ++ ": " ++ advice⟩]
      | none => some []
  | .arr _ => none
  | .obj _ => none
  | _ => some []

/-- Rule 6 for one entity: no deprecated property names (keys are strings,
so this rule cannot raise). -/
def rule6_entity (e : JObj) : List Issue :=
  e.filterMap fun kv =>
    (DEPRECATED_PROPERTIES.lookup kv.1).map fun repl =>
      ⟨6, "FAIL", "Deprecated property " ++ kv.1 ++ " on "
        ++ pyRender (getO e "@type" (.str "?")) ++ ": use " ++ repl⟩

/-- Rule 6 over the entity list. -/
def rule6_issues (es : List JObj) : List Issue :=
  es.foldr (fun e acc => rule6_entity e ++ acc) []

/-- Rule 7 for one entity: no property from the per-type denylist. -/
def rule7_entity (e : JObj) : Option (List Issue) :=
  match getO e "@type" (.str "") with
  | .str s =>
      match INVALID_PROPERTIES.lookup s with
      | some bad => some (e.filterMap fun kv =>
          if kv.1 ∈ bad then
            some ⟨7, "WARN", "Property " ++ kv.1 ++ " is not valid on @type " ++ s⟩
          else none)
      | none => some []
  | .arr _ => none
  | .obj _ => none
  | _ => some []

/-- Rule 9 helper: the entity has an `address` dict whose `addressCountry`
is a dict of `@type` `"Country"`. -/
def entityFullCountry (e : JObj) : Bool :=
  match lookupKey e "address" with
  | some (.obj a) =>
      match lookupKey a "addressCountry" with
      | some (.obj c) => lookupKey c "@type" == some (.str "Country")
      | _ => false
  | _ => false

/-- Rule 9: warn once per document when some Organization/LocalBusiness
entity exists but no entity fully defines its postal-address country. -/
def rule9 (es : List JObj) : List Issue :=
  let hasFull := es.any entityFullCountry
  let hasOrgLB := es.any fun e =>
    match lookupKey e "@type" with
    | some (.str s) => s == "Organization" || s == "LocalBusiness"
    | _ => false
  if hasFull = false ∧ hasOrgLB = true then
    [⟨9, "WARN", "Country entity not fully defined in any PostalAddress"⟩]
  else []

def phoneFixMsg (fixed : String) : String := "Auto-fixed phone to E.164: " ++ fixed

/-- Rule 10 for one entity: a truthy non-E.164 telephone is reformatted in
place from a bare 10-digit or leading-1 11-digit number (auto-fix), else
warned.  `re.match` on a truthy non-string raises `TypeError` (`none`). -/
def rule10_entity (e : JObj) : Option (JObj × List String × List Issue) :=
  let phone := getO e "telephone" (.str "")
  if phone.truthy = false then some (e, [], [])
  else match phone with
    | .str s =>
        if e164Match s then some (e, [], [])
        else
          let digits := stripNonDigits s
          if digits.length = 10 then
            some (setKey e "telephone" (.str ("+1" ++ digits)), [phoneFixMsg ("+1" ++ digits)], [])
          else if digits.length = 11 ∧ strStartsWith digits "1" = true then
            some (setKey e "telephone" (.str ("+" ++ digits)), [phoneFixMsg ("+" ++ digits)], [])
          else
            some (e, [], [⟨10, "WARN", "Phone " ++ s ++ " is not E.164 format"⟩])
    | _ => none

/-- Generic sequenced traversal used by Rule 10: apply a fallible step to
each element (yielding the updated element plus its fixes and issues) and
concatenate in order; a raised exception (`none`) aborts everything. -/
def seqStep {α : Type} (g : α → Option (α × List String × List Issue)) :
    List α → Option (List α × List String × List Issue)
  | [] => some ([], [], [])
  | x :: rest =>
      match g x, seqStep g rest with
      | some r1, some r2 => some (r1.1 :: r2.1, r1.2.1 ++ r2.2.1, r1.2.2 ++ r2.2.2)
      | _, _ => none

/-- Rule 10 step for one binding of a top-level entity: dict values
declaring a `@type` are the aliased nested entities; their telephone fix
writes back into the parent binding. -/
def rule10_nestedStep : (String × Json) → Option ((String × Json) × List String × List Issue)
  | (k, v) =>
      match v with
      | .obj o =>
          if hasKeyO o "@type" then
            (rule10_entity o).map fun r => ((k, Json.obj r.1), r.2.1, r.2.2)
          else some ((k, v), [], [])
      | _ => some ((k, v), [], [])

/-- Rule 10 over the nested entities of one top-level entity. -/
def rule10_nested (b : JObj) : Option (JObj × List String × List Issue) :=
  seqStep rule10_nestedStep b

/-- Rule 10 step for one `@graph` member in the first (top-entity) pass. -/
def rule10_topStep : Json → Option (Json × List String × List Issue)
  | .obj o => (rule10_entity o).map fun r => (Json.obj r.1, r.2.1, r.2.2)
  | it => some (it, [], [])

/-- Rule 10, first pass over the `@graph` members (the top entities). -/
def rule10_graphTop (items : List Json) : Option (List Json × List String × List Issue) :=
  seqStep rule10_topStep items

/-- Rule 10 step for one `@graph` member in the second (nested) pass. -/
def rule10_nestedItemStep : Json → Option (Json × List String × List Issue)
  | .obj o => (rule10_nested o).map fun r => (Json.obj r.1, r.2.1, r.2.2)
  | it => some (it, [], [])

/-- Rule 10, second pass: the nested entities of each `@graph` member. -/
def rule10_graphNested (items : List Json) : Option (List Json × List String × List Issue) :=
  seqStep rule10_nestedItemStep items

/-- Rule 10 over the whole document: the source iterates the entity list
(top entities first, then the nested ones) mutating each entity in place;
this computes the same final document and the fix/issue lists in the same
order. -/
def rule10_doc (p : JObj) : Option (JObj × List String × List Issue) :=
  match lookupKey p "@graph" with
  | some (.arr items) =>
      match rule10_graphTop items with
      | none => none
      | some t =>
          match rule10_graphNested t.1 with
          | none => none
          | some n => some (setKey p "@graph" (.arr n.1), t.2.1 ++ n.2.1, t.2.2 ++ n.2.2)
  | some (.str _) => some (p, [], [])
  | some (.obj _) => some (p, [], [])
  | some _ => none
  | none =>
      match rule10_entity p with
      | none => none
      | some t =>
          match rule10_nested t.1 with
          | none => none
          | some n => some (n.1, t.2.1 ++ n.2.1, t.2.2 ++ n.2.2)

def DATE_PROPS : List String :=
  ["foundingDate", "dateCreated", "dateModified", "datePublished"]

/-- Rule 11 over the date properties of one entity: a truthy value must be a
string with an ISO-8601 date prefix; `_is_valid_date` on a truthy non-string
raises (`none`). -/
def rule11_props (e : JObj) : List String → Option (List Issue)
  | [] => some []
  | p :: rest => do
      let h ← (match getO e p (.str "") with
        | .str s =>
            if s = "" then some []
            else if is_valid_date s then some []
            else some [⟨11, "WARN", "Date " ++ s ++ " for " ++ p ++ " is not ISO 8601"⟩]
        | v => if v.truthy then none else some [])
      let t ← rule11_props e rest
      pure (h ++ t)

def rule11_entity (e : JObj) : Option (List Issue) := rule11_props e DATE_PROPS

def scriptFixMsg : String := "Stripped <script> tags from output"

/-- Rule 12: `"<script" in raw_json.lower()` records an auto-fix notice and
a WARN issue; the document is not modified. -/
def rule12 (hasScript : Bool) : List Issue × List String :=
  if hasScript then
    ([⟨12, "WARN", "Output contained <script> tags (auto-removed)"⟩], [scriptFixMsg])
  else ([], [])

/-- Rule 13 local-id set: the truthy `@id` values of the entities.  Adding
an unhashable value to the Python set raises (`none`); hashable non-string
ids enter the set but can never equal a string reference, so only the
strings are kept. -/
def localIdsOf : List JObj → Option (List String)
  | [] => some []
  | e :: rest => do
      let h ← (match lookupKey e "@id" with
        | some v =>
            if v.truthy then
              match v with
              | .str s => some [s]
              | .num _ => some []
              | .bool _ => some []
              | _ => none
            else some []
        | none => some [])
      let t ← localIdsOf rest
      pure (h ++ t)

/-- `_check_id_refs`, bare-reference check for one dict value: a truthy
`@id` with no truthy `@type` must have a recognized external URI shape or be
a known id.  `.startswith` on a truthy non-string `@id` raises (`none`). -/
def bareRefIssue (known : List String) (o : JObj) : Option (List Issue) :=
  match lookupKey o "@id" with
  | some r =>
      if r.truthy then
        if (getO o "@type" .null).truthy then some []
        else match r with
          | .str s =>
              if strStartsWith s "http://www.wikidata.org" = false ∧
                 strStartsWith s "https://g.co" = false ∧
                 strStartsWith s "https://www.google.com/maps" = false ∧
                 s ∉ known then
                some [⟨13, "WARN", "Unresolved @id reference: " ++ s⟩]
              else some []
          | _ => none
      else some []
  | none => some []

mutual

/-- `_check_id_refs(obj, known_ids, issues)`: walk the bindings in order
(skipping the `@id` key), check dict values as bare references and recurse
into them, and recurse into the dict members of list values. -/
def check_id_refs (known : List String) : JObj → Option (List Issue)
  | [] => some []
  | (k, v) :: rest => do
      let h ← (if k = "@id" then some [] else checkRefVal known v)
      let t ← check_id_refs known rest
      pure (h ++ t)

def checkRefVal (known : List String) : Json → Option (List Issue)
  | .obj o => do
      let s ← bareRefIssue known o
      let inner ← check_id_refs known o
      pure (s ++ inner)
  | .arr xs => checkRefList known xs
  | _ => some []

def checkRefList (known : List String) : List Json → Option (List Issue)
  | [] => some []
  | x :: rest => do
      let h ← (match x with
        | .obj o => check_id_refs known o
        | _ => some [])
      let t ← checkRefList known rest
      pure (h ++ t)

end

/-- `_check_id_refs` over every entity of the list (nested entities are
walked both inside their parent and in their own right, as in the source). -/
def seqRefs (known : List String) : List JObj → Option (List Issue)
  | [] => some []
  | e :: rest => do
      let a ← check_id_refs known e
      let b ← seqRefs known rest
      pure (a ++ b)

/-- Rule 13: only evaluated when a global id set is supplied; bare
references must resolve against the local ids united with it. -/
def rule13 (es : List JObj) (all_defined_ids : Option (List String)) : Option (List Issue) :=
  match all_defined_ids with
  | none => some []
  | some gids => do
      let lids ← localIdsOf es
      seqRefs (lids ++ gids) es

/-- Rule 16 body once a container and nested entity are found. -/
def rule16_checks (c n : JObj) : List Issue :=
  let ntypeA := pyRender (getO n "@type" .null)
  let ntypeB := pyRender (getO n "@type" (.str ""))
  (if (getO c "mainEntity" .null).truthy = false then
    [⟨16, "WARN", "Dual-type: WebContent container missing mainEntity"⟩] else [])
  ++ (if (getO n "subjectOf" .null).truthy = false then
    [⟨16, "WARN", "Dual-type: " ++ ntypeA ++ " missing subjectOf"⟩] else [])
  ++ (match getO c "mainEntity" (.obj []) with
      | .obj me =>
          if getO me "@id" .null ≠ getO n "@id" .null then
            [⟨16, "WARN", "Dual-type: mainEntity @id does not match nested entity @id"⟩]
          else []
      | _ => [])
  ++ (match getO n "subjectOf" (.obj []) with
      | .obj so =>
          if getO so "@id" .null ≠ getO c "@id" .null then
            [⟨16, "WARN", "Dual-type: subjectOf @id does not match container @id"⟩]
          else []
      | _ => [])
  ++ (CONTAINER_ONLY_PROPERTIES.filterMap fun p =>
        if hasKeyO n p = true ∧ p ≠ "headline" then
          some ⟨16, "WARN", "Dual-type: " ++ p ++ " should be on WebContent container, not " ++ ntypeB⟩
        else none)
  ++ (NESTED_ONLY_PROPERTIES.filterMap fun p =>
        if hasKeyO c p = true then
          some ⟨16, "WARN", "Dual-type: " ++ p ++ " should be on " ++ ntypeB ++ ", not WebContent container"⟩
        else none)

/-- `_check_dual_type_integrity` (Rule 16): only for `@graph` documents with
at least two major entities, a WebContent container (last one found) and a
nested Service/Person/LocalBusiness/Organization entity (last one found). -/
def rule16 (parsed : JObj) (es : List JObj) : List Issue :=
  if hasKeyO parsed "@graph" = false then [] else
  let majors := es.filter fun e =>
    match lookupKey e "@type" with
    | some (.str s) => MAJOR_TYPES.contains s
    | _ => false
  if majors.length < 2 then [] else
  let container := (majors.filter fun e =>
    lookupKey e "@type" == some (.str "WebContent")).getLast?
  let nested := (majors.filter fun e =>
    match lookupKey e "@type" with
    | some (.str s) => ["Service", "Person", "LocalBusiness", "Organization"].contains s
    | _ => false).getLast?
  match container, nested with
  | some c, some n => rule16_checks c n
  | _, _ => []

/-- The raw text handed to `validate_jsonld`, reduced to the only two
observations the source makes of it: the `json.loads` outcome (`none` is a
`json.JSONDecodeError`) and whether `"<script"` occurs in its lowercasing. -/
structure RawText where
  parse : Option Json
  hasScriptTag : Bool
deriving DecidableEq, Repr

/-- The dict returned by `validate_jsonld`. -/
structure VResult where
  status : String
  issues : List Issue
  auto_fixes : List String
  parsed : Option Json
deriving DecidableEq, Repr

/-- `_result(issues, auto_fixes, parsed)` from `src/validator.py`. -/
def _result (issues : List Issue) (auto_fixes : List String) (parsed : Option Json) : VResult :=
  let has_fail := issues.any fun i => i.sev == "FAIL"
  let has_warn := issues.any fun i => i.sev == "WARN"
  { status := if has_fail then "FAIL" else if has_warn then "WARN" else "PASS",
    issues := issues, auto_fixes := auto_fixes, parsed := parsed }

/-- Rules 2–16 on a successfully parsed document.  `none` models an
uncaught exception: there is no per-rule exception handling in the source,
so the first raise aborts the whole call and the partial issue list is
discarded — a single fallible rule evaluation returning `none` makes the
whole result `none`, which the multi-way match expresses.  In the returned
triple, issues and auto-fixes are concatenated in the evaluation order of
the source (issues 2,3,4,5,6,7,9,10,11,12,13,16; fixes 2,10,12). -/
def validate_parsed (hasScript : Bool) (parsed : Json) (all_defined_ids : Option (List String)) :
    Option (List Issue × List String × Json) :=
  match parsed with
  | .obj pobj =>
    match extract_entities pobj with
    | none => none
    | some es =>
      match rule10_doc (rule2 pobj).2.2, seqIssues rule3_entity es, seqIssues rule4_entity es,
            seqIssues rule5_entity es, seqIssues rule7_entity es, seqIssues rule11_entity es,
            rule13 es all_defined_ids with
      | some r10, some i3, some i4, some i5, some i7, some i11, some i13 =>
          some ((rule2 pobj).1 ++ i3 ++ i4 ++ i5 ++ rule6_issues es ++ i7 ++ rule9 es
              ++ r10.2.2 ++ i11 ++ (rule12 hasScript).1 ++ i13 ++ rule16 pobj es,
            (rule2 pobj).2.1 ++ r10.2.1 ++ (rule12 hasScript).2, .obj r10.1)
      | _, _, _, _, _, _, _ => none
  | _ => none

/-- `validate_jsonld(raw_json, all_defined_ids)`: Rule 1 catches the parse
failure and returns immediately with that single issue; otherwise the
remaining rules all run and the result is assembled by `_result`.  `none`
models an exception escaping the call. -/
def validate_jsonld (raw : RawText) (all_defined_ids : Option (List String) := none) :
    Option VResult :=
  match raw.parse with
  | none => some (_result [rule1Issue] [] none)
  | some parsed =>
      (validate_parsed raw.hasScriptTag parsed all_defined_ids).map
        fun r => _result r.1 r.2.1 (some r.2.2)

/-- The serialization of a parsed document, re-submitted to the validator:
`json.dumps` round-trips through `json.loads` to the same value, and the
script-tag flag is recomputed from the dumped text. -/
def rawOf (j : Json) : RawText :=
  { parse := some j, hasScriptTag := strContains (strLower (dumps j)) "<script" }

/-! ### The processing pipeline, from `src/processor.py`

Rows are dicts from the CSV; the fields consulted by the embedded functions
are modelled as a structure (`""` stands for an absent or empty value, which
are indistinguishable under Python truthiness here). -/

/-- One CSV row with its type-assignment fields (`_inferred_type`,
`_type_confidence`). -/
structure Row where
  URL : String
  SchemaType : String
  inferredType : String
  typeConfidence : String
deriving DecidableEq, Repr

/-- Characters after the first occurrence of `sub`, if any. -/
def afterFirstSubAux (sub : List Char) : List Char → Option (List Char)
  | [] => none
  | c :: rest =>
      if sub.isPrefixOf (c :: rest) then some ((c :: rest).drop sub.length)
      else afterFirstSubAux sub rest

/-- `get_url_path(url)` = `urlparse(url).path`, modelled for the absolute
URLs this pipeline handles: strip the fragment and query, then take from the
first slash after the `scheme://authority` part. -/
def get_url_path (url : String) : String :=
  let noFrag := (splitOnChar '#' url).headD ""
  let core := (splitOnChar '?' noFrag).headD ""
  match afterFirstSubAux "://".data core.data with
  | some rest => String.mk (rest.dropWhile (· ≠ '/'))
  | none => core

/-- Url path patterns of `URL_TYPE_PATTERNS`: each regex in the source has
one of these four shapes. -/
inductive PathPat where
  | exactRoot : PathPat
  | optSlash (pre : String) : PathPat
  | oneSeg (pre : String) : PathPat
  | anyPlus (pre : String) : PathPat
deriving DecidableEq, Repr

/-- Regex `$` semantics: the subject up to an optional one final newline. -/
def reBody (s : String) : List Char :=
  if s.data.getLast? = some '\n' then s.data.dropLast else s.data

/-- Drop one optional trailing slash (the `/?` before `$`). -/
def dropOptSlash (cs : List Char) : List Char :=
  match cs.getLast? with
  | some '/' => cs.dropLast
  | _ => cs

/-- `re.match` of the four pattern shapes (`^/$`, `^pre/?$`, `^pre[^/]+/?$`,
`^pre.+/?$`; `.` excludes the newline, `[^/]` excludes only the slash). -/
def PathPat.matches : PathPat → String → Bool
  | .exactRoot, s => reBody s == ['/']
  | .optSlash p, s => reBody s == p.data || reBody s == p.data ++ ['/']
  | .oneSeg p, s =>
      p.data.isPrefixOf (reBody s) &&
        (let rest := dropOptSlash ((reBody s).drop p.data.length)
         !rest.isEmpty && rest.all (· ≠ '/'))
  | .anyPlus p, s =>
      p.data.isPrefixOf (reBody s) &&
        (let rest := (reBody s).drop p.data.length
         !rest.isEmpty && rest.all (· ≠ '\n'))

/-- `URL_TYPE_PATTERNS` from `src/knowledge.py`: ordered
(pattern, type, confidence) rules. -/
def URL_TYPE_PATTERNS : List (PathPat × String × String) :=
  [(.exactRoot, "Organization", "High"),
   (.optSlash "/about", "AboutPage", "High"),
   (.optSlash "/about-us", "AboutPage", "High"),
   (.oneSeg "/about/team/", "WebContent|Person", "High"),
   (.oneSeg "/team/", "WebContent|Person", "High"),
   (.oneSeg "/locations/", "LocalBusiness", "High"),
   (.oneSeg "/contact/", "LocalBusiness", "High"),
   (.optSlash "/services", "WebContent|Service", "High"),
   (.anyPlus "/services/", "WebContent|Service", "High"),
   (.anyPlus "/solutions/", "WebContent|Service", "High"),
   (.anyPlus "/blog/", "WebContent", "Medium"),
   (.anyPlus "/news/", "WebContent", "Medium"),
   (.anyPlus "/industries/", "WebContent", "Medium"),
   (.anyPlus "/areas-we-serve/", "WebContent", "Medium")]

/-- First pattern match wins. -/
def firstPatMatch : List (PathPat × String × String) → String → Option (String × String)
  | [], _ => none
  | (pat, t, conf) :: rest, path =>
      if pat.matches path then some (t, conf) else firstPatMatch rest path

/-- `infer_schema_type(url)` from `src/processor.py`. -/
def infer_schema_type (url : String) : String × String :=
  let path := rstripChar (get_url_path url) '/' ++ "/"
  if path = "/" then ("Organization", "High")
  else (firstPatMatch URL_TYPE_PATTERNS path).getD ("WebContent", "Low")

/-- One row of `assign_types`: a truthy `SchemaType` override wins with
confidence `"Override"`, else the URL inference is used. -/
def assign_row_type (row : Row) : Row :=
  if row.SchemaType ≠ "" then
    { row with inferredType := row.SchemaType, typeConfidence := "Override" }
  else
    let tc := infer_schema_type row.URL
    { row with inferredType := tc.1, typeConfidence := tc.2 }

/-- `assign_types(rows)` from `src/processor.py`. -/
def assign_types (rows : List Row) : List Row := rows.map assign_row_type

/-- Modelled from the spec (§4.2): the *primary entity type* of a row — the
nested type when the row type is dual, else the inferred type.  The source
has no such function; this states claim C6 as written. -/
def specPrimaryEntityType (r : Row) : String :=
  let parts := splitOnChar '|' r.inferredType
  if parts.length = 2 then (parts.getLast?).getD r.inferredType else r.inferredType

/-- The per-URL record of `build_service_hierarchy`. -/
structure HInfo where
  segments : List String
  depth : Nat
  parent : Option String
  children : List String
  siblings : List String
deriving DecidableEq, Repr

/-- Path segments of a URL: non-empty parts of the slash-stripped path. -/
def pathSegments (url : String) : List String :=
  (splitOnChar '/' (stripChar (get_url_path url) '/')).filter (fun s => s ≠ "")

def urlDepth (url : String) : Nat := (pathSegments url).length

/-- The parent test of `build_service_hierarchy`: one fewer segment, and the
candidate path (trailing slashes stripped) is a prefix of the child path. -/
def isDirectParent (u o : String) : Bool :=
  decide ((urlDepth o : Int) = (urlDepth u : Int) - 1) &&
    strStartsWith (get_url_path u) (rstripChar (get_url_path o) '/')

/-- Helper for `dedupKeepFirst`: drop elements seen before. -/
def dedupKeepFirstAux (seen : List String) : List String → List String
  | [] => []
  | x :: rest =>
      if x ∈ seen then dedupKeepFirstAux seen rest
      else x :: dedupKeepFirstAux (x :: seen) rest

/-- Unique URLs in first-insertion order (Python dict keyed by URL). -/
def dedupKeepFirst (l : List String) : List String := dedupKeepFirstAux [] l

/-- The final `parent` of a URL: the parent loop assigns every match in
iteration order, so the last matching URL wins. -/
def parentOfIn (urls : List String) (u : String) : Option String :=
  (urls.filter fun o => (o != u) && isDirectParent u o).getLast?

/-- The final `children` list of a URL: appended in outer-loop order. -/
def childrenOfIn (urls : List String) (u : String) : List String :=
  urls.filter fun c => (c != u) && isDirectParent c u

/-- The final `siblings` list of a URL: same truthy parent and same depth
(the source guard `info["parent"] and ...` makes a falsy parent — `None` or
the empty string — produce no siblings). -/
def siblingsOfIn (urls : List String) (u : String) : List String :=
  match parentOfIn urls u with
  | some p =>
      if p = "" then []
      else urls.filter fun o =>
        (o != u) && (parentOfIn urls o == some p) && (urlDepth u == urlDepth o)
  | none => []

/-- `build_service_hierarchy(rows)` from `src/processor.py`: restricted to
rows whose `_inferred_type` is exactly `"Service"`; returns the relationship
mapping in insertion order. -/
def build_service_hierarchy (rows : List Row) : List (String × HInfo) :=
  let service_urls := (rows.filter fun r => r.inferredType == "Service").map Row.URL
  let urls := dedupKeepFirst service_urls
  if urls.isEmpty then [] else
  urls.map fun u =>
    (u, { segments := pathSegments u, depth := urlDepth u,
          parent := parentOfIn urls u, children := childrenOfIn urls u,
          siblings := siblingsOfIn urls u })

/-! ### Decidable per-entity conditions used to state the claims -/

/-- The entity declares a string `@type` that is in the allow-list. -/
def entityTypeValid (e : JObj) : Bool :=
  match lookupKey e "@type" with
  | some (.str s) => VALID_TYPES.contains s
  | _ => false

/-- If the entity is major-typed, its `@id` is truthy. -/
def entityMajorHasId (e : JObj) : Bool :=
  match lookupKey e "@type" with
  | some (.str s) => !MAJOR_TYPES.contains s || (getO e "@id" .null).truthy
  | _ => true

/-- No property of the entity is deprecated. -/
def entityNoDeprecatedProps (e : JObj) : Bool :=
  e.all fun kv => (DEPRECATED_PROPERTIES.lookup kv.1).isNone

/-- No property of the entity is in its type's denylist. -/
def entityPropsAllowed (e : JObj) : Bool :=
  match lookupKey e "@type" with
  | some (.str s) =>
      match INVALID_PROPERTIES.lookup s with
      | some bad => e.all fun kv => !bad.contains kv.1
      | none => true
  | _ => true

/-- The telephone value is absent, falsy, or an E.164 string. -/
def entityPhoneOK (e : JObj) : Bool :=
  match lookupKey e "telephone" with
  | none => true
  | some v => !v.truthy || (match v with | .str s => e164Match s | _ => false)

/-- Every date-valued property is absent, falsy, or an ISO-8601 string. -/
def entityDatesOK (e : JObj) : Bool :=
  DATE_PROPS.all fun p =>
    match lookupKey e p with
    | none => true
    | some v => !v.truthy || (match v with | .str s => is_valid_date s | _ => false)

/-- The entity's declared type is neither Organization nor LocalBusiness. -/
def entityNotOrgLB (e : JObj) : Bool :=
  match lookupKey e "@type" with
  | some (.str s) => !(s == "Organization" || s == "LocalBusiness")
  | _ => true

/-! ### Helper lemmas -/

theorem strData_append (x y : String) : (x ++ y).data = x.data ++ y.data := by
  cases x; cases y; rfl

theorem strStartsWith_append (x y : String) : strStartsWith (x ++ y) x = true := by
  simp [strStartsWith, strData_append, List.isPrefixOf_iff_prefix]

theorem lookupKey_setKey_self (o : JObj) (k : String) (v : Json) :
    lookupKey (setKey o k v) k = some v := by
  induction o with
  | nil => simp [setKey, lookupKey]
  | cons kv rest ih =>
      obtain ⟨k0, w⟩ := kv
      by_cases h : k0 = k <;> simp [setKey, h, lookupKey, ih]

theorem lookupKey_setKey_other (o : JObj) (k k' : String) (v : Json) (h : k' ≠ k) :
    lookupKey (setKey o k v) k' = lookupKey o k' := by
  induction o with
  | nil => simp [setKey, lookupKey, Ne.symm h]
  | cons kv rest ih =>
      obtain ⟨k0, w⟩ := kv
      by_cases h0 : k0 = k
      · subst h0
        simp [setKey, lookupKey, Ne.symm h, ih]
      · simp [setKey, h0, lookupKey, ih]

theorem setKey_eq_self (o : JObj) (k : String) (v : Json) (h : lookupKey o k = some v) :
    setKey o k v = o := by
  induction o with
  | nil => simp [lookupKey] at h
  | cons kv rest ih =>
      obtain ⟨k0, w⟩ := kv
      by_cases h0 : k0 = k
      · subst h0
        simp [lookupKey] at h
        simp [setKey, h]
      · simp [lookupKey, h0] at h
        simp [setKey, h0, ih h]

theorem _result_status (i : List Issue) (f : List String) (p : Option Json) :
    (_result i f p).status =
      (if i.any (fun x => x.sev == "FAIL") then "FAIL"
       else if i.any (fun x => x.sev == "WARN") then "WARN" else "PASS") := rfl

/-! ### Claim C1 -/

/-- Claim C1: for every input text and every optional global-id set, the
status of the result returned by `validate_jsonld` is FAIL if some issue has
severity FAIL, otherwise WARN if some issue has severity WARN, otherwise
PASS. -/
theorem claim1_status_reduction (raw : RawText) (ids : Option (List String)) (r : VResult)
    (h : validate_jsonld raw ids = some r) :
    r.status = (if r.issues.any (fun i => i.sev == "FAIL") then "FAIL"
                else if r.issues.any (fun i => i.sev == "WARN") then "WARN" else "PASS") := by
  rcases raw with ⟨pr, hs⟩
  cases pr with
  | none =>
      simp only [validate_jsonld, Option.some.injEq] at h
      subst h
      rfl
  | some j =>
      simp only [validate_jsonld, Option.map_eq_some'] at h
      obtain ⟨a, _, rfl⟩ := h
      rfl

/-- Witness for claim C1 at a concrete input. -/
theorem claim1_status_reduction_witness :
    (VResult.mk "FAIL" [rule1Issue] [] none).status =
      (if ([rule1Issue] : List Issue).any (fun i => i.sev == "FAIL") then "FAIL"
       else if ([rule1Issue] : List Issue).any (fun i => i.sev == "WARN") then "WARN"
       else "PASS") :=
  claim1_status_reduction ⟨none, false⟩ none (VResult.mk "FAIL" [rule1Issue] [] none) (by decide)

/-! ### Claim C4 -/

/-- Claim C4: for every entity whose telephone value is a non-empty string
that does not already match `+` followed by 10–15 digits, Rule 10 strips the
non-digit characters and: with exactly 10 digits left, replaces the value in
place by `+1` plus the digits, recording an auto-fix; with exactly 11 digits
starting with `1`, replaces it by `+` plus the digits, recording an
auto-fix; in every other case leaves the value unchanged and records exactly
one Rule 10 WARN. -/
theorem claim4_rule10_normalization (e : JObj) (s : String)
    (hp : lookupKey e "telephone" = some (.str s)) (hs : s ≠ "")
    (hm : e164Match s = false) :
    ((stripNonDigits s).length = 10 →
      rule10_entity e = some (setKey e "telephone" (.str ("+1" ++ stripNonDigits s)),
        [phoneFixMsg ("+1" ++ stripNonDigits s)], [])) ∧
    ((stripNonDigits s).length = 11 → strStartsWith (stripNonDigits s) "1" = true →
      rule10_entity e = some (setKey e "telephone" (.str ("+" ++ stripNonDigits s)),
        [phoneFixMsg ("+" ++ stripNonDigits s)], [])) ∧
    ((stripNonDigits s).length ≠ 10 →
      ¬((stripNonDigits s).length = 11 ∧ strStartsWith (stripNonDigits s) "1" = true) →
      rule10_entity e = some (e, [], [⟨10, "WARN", "Phone " ++ s ++ " is not E.164 format"⟩])) := by
  refine ⟨?_, ?_, ?_⟩
  · intro h10
    simp [rule10_entity, getO, hp, Json.truthy, hs, hm, h10]
  · intro h11 hstart
    simp [rule10_entity, getO, hp, Json.truthy, hs, hm, h11, hstart]
  · intro h10 h11
    simp [rule10_entity, getO, hp, Json.truthy, hs, hm, h10, h11]

/-- Witness for claim C4 at the two concrete telephone examples of the
claim: `404-555-1234` is auto-fixed to `+14045551234`, and the 7-digit
`555-1234` is left unfixed with exactly one Rule 10 WARN. -/
theorem claim4_rule10_normalization_witness :
    rule10_entity [("telephone", Json.str "404-555-1234")] =
      some ([("telephone", Json.str "+14045551234")],
        ["Auto-fixed phone to E.164: +14045551234"], []) ∧
    rule10_entity [("telephone", Json.str "555-1234")] =
      some ([("telephone", Json.str "555-1234")], [],
        [⟨10, "WARN", "Phone 555-1234 is not E.164 format"⟩]) := by
  constructor
  · have h := (claim4_rule10_normalization [("telephone", Json.str "404-555-1234")]
      "404-555-1234" (by decide) (by decide) (by decide)).1 (by decide)
    rw [h]
    decide
  · have h := (claim4_rule10_normalization [("telephone", Json.str "555-1234")]
      "555-1234" (by decide) (by decide) (by decide)).2.2 (by decide) (by decide)
    rw [h]
    decide

/-! ### Claim C6 -/

theorem mem_dedupKeepFirstAux (u : String) :
    ∀ (l seen : List String), u ∈ dedupKeepFirstAux seen l ↔ (u ∈ l ∧ u ∉ seen)
  | [], seen => by simp [dedupKeepFirstAux]
  | x :: rest, seen => by
      by_cases hx : x ∈ seen
      · simp only [dedupKeepFirstAux, if_pos hx, mem_dedupKeepFirstAux u rest seen,
          List.mem_cons]
        constructor
        · rintro ⟨h1, h2⟩
          exact ⟨Or.inr h1, h2⟩
        · rintro ⟨h1 | h1, h2⟩
          · exact absurd (h1 ▸ hx) h2
          · exact ⟨h1, h2⟩
      · simp only [dedupKeepFirstAux, if_neg hx, List.mem_cons,
          mem_dedupKeepFirstAux u rest (x :: seen)]
        constructor
        · rintro (rfl | ⟨h1, h2⟩)
          · exact ⟨Or.inl rfl, hx⟩
          · simp only [List.mem_cons, not_or] at h2
            exact ⟨Or.inr h1, h2.2⟩
        · rintro ⟨rfl | h1, h2⟩
          · exact Or.inl rfl
          · by_cases hu : u = x
            · exact Or.inl hu
            · exact Or.inr ⟨h1, by simp [hu, h2]⟩

theorem mem_dedupKeepFirst (u : String) (l : List String) :
    u ∈ dedupKeepFirst l ↔ u ∈ l := by
  simp [dedupKeepFirst, mem_dedupKeepFirstAux]

/-- Claim C6 counterexample: a row whose inferred type is the dual
`WebContent|Service` has primary entity type `Service` (spec reading), yet
`build_service_hierarchy` excludes it — it filters on
`_inferred_type == "Service"` exactly. -/
theorem claim6_counterexample :
    specPrimaryEntityType ⟨"https://example.com/services/ac/", "", "WebContent|Service", "High"⟩
      = "Service" ∧
    build_service_hierarchy
      [⟨"https://example.com/services/ac/", "", "WebContent|Service", "High"⟩] = [] := by
  decide

/-- Claim C6 as amended: `build_service_hierarchy` includes exactly the rows
whose assigned `_inferred_type` is the literal `"Service"` tag (dual-type
rows are excluded even when their nested type is Service); and for three
Service-typed rows `/services/`, `/services/ac/`, `/services/ac/repair/` it
assigns depths 1, 2, 3, parents `none`, `/services/`, `/services/ac/`, and
children lists that are exactly the inverse of the parent relation. -/
theorem claim6_service_hierarchy :
    (∀ (rows : List Row) (u : String),
      u ∈ (build_service_hierarchy rows).map Prod.fst ↔
        ∃ r ∈ rows, r.inferredType = "Service" ∧ r.URL = u) ∧
    build_service_hierarchy
      [⟨"https://example.com/services/", "", "Service", "High"⟩,
       ⟨"https://example.com/services/ac/", "", "Service", "High"⟩,
       ⟨"https://example.com/services/ac/repair/", "", "Service", "High"⟩] =
      [("https://example.com/services/",
        ⟨["services"], 1, none, ["https://example.com/services/ac/"], []⟩),
       ("https://example.com/services/ac/",
        ⟨["services", "ac"], 2, some "https://example.com/services/",
         ["https://example.com/services/ac/repair/"], []⟩),
       ("https://example.com/services/ac/repair/",
        ⟨["services", "ac", "repair"], 3, some "https://example.com/services/ac/", [], []⟩)] := by
  constructor
  · intro rows u
    have hmem : (u ∈ dedupKeepFirst
          ((rows.filter fun r => r.inferredType == "Service").map Row.URL)) ↔
        ∃ r ∈ rows, r.inferredType = "Service" ∧ r.URL = u := by
      rw [mem_dedupKeepFirst]
      constructor
      · intro h
        obtain ⟨r, hr, hru⟩ := List.mem_map.mp h
        have hf := List.mem_filter.mp hr
        exact ⟨r, hf.1, by simpa using hf.2, hru⟩
      · rintro ⟨r, hr, ht, hu⟩
        exact List.mem_map.mpr ⟨r, List.mem_filter.mpr ⟨hr, by simp [ht]⟩, hu⟩
    by_cases hempty : dedupKeepFirst
        ((rows.filter fun r => r.inferredType == "Service").map Row.URL) = []
    · rw [hempty] at hmem
      rw [← hmem]
      simp [build_service_hierarchy, hempty]
    · have hne : (dedupKeepFirst
          ((rows.filter fun r => r.inferredType == "Service").map Row.URL)).isEmpty = false := by
        cases h : dedupKeepFirst
            ((rows.filter fun r => r.inferredType == "Service").map Row.URL) with
        | nil => exact absurd h hempty
        | cons a l => rfl
      rw [← hmem]
      simp only [build_service_hierarchy, hne, Bool.false_eq_true, if_false,
        List.map_map]
      simp [Function.comp]
  · decide

/-! ### Claim C9 -/

/-- Claim C9 counterexample: the override `Service|Service` is in the
invalid dual-type table with reason `Same type twice`, yet `assign_types`
records confidence exactly `"Override"` — it performs no dual-type
validation, so the confidence does not carry the validation-failure
reason. -/
theorem claim9_counterexample :
    INVALID_DUAL_TYPES.lookup "Service|Service" = some "Same type twice" ∧
    assign_types [⟨"https://acme.com/x/", "Service|Service", "", ""⟩] =
      [⟨"https://acme.com/x/", "Service|Service", "Service|Service", "Override"⟩] ∧
    strContains "Override" "Same type twice" = false := by
  decide

/-- Claim C9 as amended: a manual `SchemaType` override always becomes the
row's assigned type and the confidence becomes exactly `"Override"`,
whether or not the override is a valid dual-type string — the dual-type
tables are never consulted; rows without an override get the URL
inference. -/
theorem claim9_override_assignment (rows : List Row) (i : Nat) (row : Row)
    (h : rows[i]? = some row) :
    (assign_types rows)[i]? = some
      (if row.SchemaType ≠ "" then
        { row with inferredType := row.SchemaType, typeConfidence := "Override" }
      else
        { row with inferredType := (infer_schema_type row.URL).1,
                   typeConfidence := (infer_schema_type row.URL).2 }) := by
  simp only [assign_types, List.getElem?_map, h, Option.map_some']
  by_cases hs : row.SchemaType = "" <;> simp [assign_row_type, hs]

/-- Witness for claim C9: the invalid dual-type override `Service|Service`
is accepted with confidence `"Override"`. -/
theorem claim9_override_assignment_witness :
    (assign_types [⟨"https://acme.com/x/", "Service|Service", "", ""⟩])[0]? =
      some (if ("Service|Service" : String) ≠ "" then
        ⟨"https://acme.com/x/", "Service|Service", "Service|Service", "Override"⟩
      else
        ⟨"https://acme.com/x/", "Service|Service",
          (infer_schema_type "https://acme.com/x/").1,
          (infer_schema_type "https://acme.com/x/").2⟩) :=
  claim9_override_assignment [⟨"https://acme.com/x/", "Service|Service", "", ""⟩] 0
    ⟨"https://acme.com/x/", "Service|Service", "", ""⟩ (by decide)

/-! ### Claim C10 -/

theorem rule2_lookup_other (p : JObj) (k : String) (hk : k ≠ "@context") :
    lookupKey (rule2 p).2.2 k = lookupKey p k := by
  simp only [rule2]
  split_ifs <;> simp [lookupKey_setKey_other _ _ _ _ hk]

theorem rule10_entity_none (e : JObj) (v : Json) (h : lookupKey e "telephone" = some v)
    (htr : v.truthy = true) (hstr : v.isStr = false) : rule10_entity e = none := by
  cases v with
  | str s => simp [Json.isStr] at hstr
  | null => simp [Json.truthy] at htr
  | bool bb =>
      simp only [Json.truthy] at htr
      subst htr
      simp [rule10_entity, getO, h, Json.truthy]
  | num n =>
      simp only [Json.truthy, bne_iff_ne, ne_eq, decide_eq_true_eq] at htr
      simp [rule10_entity, getO, h, Json.truthy, htr]
  | arr xs =>
      simp only [Json.truthy, Bool.not_eq_true', ne_eq] at htr
      simp [rule10_entity, getO, h, Json.truthy, htr]
  | obj o =>
      simp only [Json.truthy, Bool.not_eq_true', ne_eq] at htr
      simp [rule10_entity, getO, h, Json.truthy, htr]

theorem validate_parsed_none_of_rule10 (b : Bool) (pobj : JObj) (ids : Option (List String))
    (h : rule10_doc (rule2 pobj).2.2 = none) :
    validate_parsed b (.obj pobj) ids = none := by
  cases hes : extract_entities pobj with
  | none => simp [validate_parsed, hes]
  | some es => simp [validate_parsed, hes, h]

/-- Claim C10 counterexample: a parseable JSON object whose telephone value
is a (truthy) number makes the whole validation raise — no result at all is
returned, so the fault in Rule 10 suppresses every other rule. -/
theorem claim10_counterexample :
    validate_jsonld ⟨some (.obj
      [("@context", .str "https://schema.org"),
       ("@type", .str "Organization"),
       ("@id", .str "https://acme.com/#Organization"),
       ("telephone", .num 7)]), false⟩ none = none := by
  decide

/-- Claim C10 as amended: the rules are not exception-isolated.  Only the
Rule 1 JSON-parse failure is caught (returning the single-issue FAIL
result); a fault while evaluating another rule — e.g. a truthy non-string
telephone value on the root entity — aborts the whole call with no result,
suppressing every other rule. -/
theorem claim10_fault_propagation :
    (∀ (b : Bool) (ids : Option (List String)),
      validate_jsonld ⟨none, b⟩ ids =
        some { status := "FAIL", issues := [rule1Issue], auto_fixes := [], parsed := none }) ∧
    (∀ (doc : JObj) (b : Bool) (ids : Option (List String)) (v : Json),
      lookupKey doc "@graph" = none →
      lookupKey doc "telephone" = some v →
      v.truthy = true → v.isStr = false →
      validate_jsonld ⟨some (.obj doc), b⟩ ids = none) := by
  constructor
  · intro b ids
    rfl
  · intro doc b ids v hg ht htr hstr
    have hg2 : lookupKey (rule2 doc).2.2 "@graph" = none := by
      rw [rule2_lookup_other doc "@graph" (by decide)]
      exact hg
    have ht2 : lookupKey (rule2 doc).2.2 "telephone" = some v := by
      rw [rule2_lookup_other doc "telephone" (by decide)]
      exact ht
    have hent : rule10_entity (rule2 doc).2.2 = none :=
      rule10_entity_none _ v ht2 htr hstr
    have h10 : rule10_doc (rule2 doc).2.2 = none := by
      unfold rule10_doc
      rw [hg2]
      simp [hent]
    have hv := validate_parsed_none_of_rule10 b doc ids h10
    simp only [validate_jsonld, hv, Option.map_none']

/-- Witness for claim C10 at concrete inputs: the caught Rule 1 case and a
propagating Rule 10 fault (boolean telephone). -/
theorem claim10_fault_propagation_witness :
    validate_jsonld ⟨none, false⟩ none =
      some { status := "FAIL", issues := [rule1Issue], auto_fixes := [], parsed := none } ∧
    validate_jsonld ⟨some (.obj [("telephone", .bool true)]), false⟩ none = none :=
  ⟨claim10_fault_propagation.1 false none,
   claim10_fault_propagation.2 [("telephone", .bool true)] false none (.bool true)
     (by decide) (by decide) (by decide) (by decide)⟩

/-! ### Claim C2 -/

/-- Claim C2 counterexample: this input parses (to a JSON object), yet not
all other rules are evaluated and no result is returned at all — the Rule 10
evaluation raises on the numeric telephone value and aborts the call, so the
claim that for every parseable input all rules are evaluated is false. -/
theorem claim2_counterexample :
    validate_jsonld ⟨some (.obj [("@context", .str "https://schema.org"),
      ("telephone", .num 5)]), false⟩ none = none := by
  decide

/-- Claim C2 as amended: an unparseable input yields exactly the single
Rule 1 FAIL issue with no auto-fixes, a null parsed document, and status
FAIL, with no other rule evaluated; and for every parseable input on which
no rule evaluation raises (the call returns a result), every rule
contributes its own issues even after a FAIL has been recorded — the issue
list is exactly the concatenation of the per-rule issue lists. -/
theorem claim2_rule_sequencing :
    (∀ (b : Bool) (ids : Option (List String)),
      validate_jsonld ⟨none, b⟩ ids =
        some { status := "FAIL", issues := [rule1Issue], auto_fixes := [], parsed := none }) ∧
    (∀ (b : Bool) (pobj : JObj) (ids : Option (List String)) (es : List JObj)
      (i3 i4 i5 i7 i11 i13 : List Issue) (r10 : JObj × List String × List Issue) (r : VResult),
      extract_entities pobj = some es →
      rule10_doc (rule2 pobj).2.2 = some r10 →
      seqIssues rule3_entity es = some i3 →
      seqIssues rule4_entity es = some i4 →
      seqIssues rule5_entity es = some i5 →
      seqIssues rule7_entity es = some i7 →
      seqIssues rule11_entity es = some i11 →
      rule13 es ids = some i13 →
      validate_jsonld ⟨some (.obj pobj), b⟩ ids = some r →
      r.issues = (rule2 pobj).1 ++ i3 ++ i4 ++ i5 ++ rule6_issues es ++ i7 ++ rule9 es
        ++ r10.2.2 ++ i11 ++ (rule12 b).1 ++ i13 ++ rule16 pobj es) := by
  constructor
  · intro b ids
    rfl
  · intro b pobj ids es i3 i4 i5 i7 i11 i13 r10 r hes h10 h3 h4 h5 h7 h11 h13 hr
    simp only [validate_jsonld, validate_parsed, hes, h10, h3, h4, h5, h7, h11, h13,
      Option.map_some', Option.some.injEq] at hr
    subst hr
    rfl

/-- Witness for claim C2 at concrete inputs: the parse-failure case, and a
document carrying both a Rule 2 FAIL and a Rule 10 WARN, showing rules after
a recorded FAIL still contribute. -/
theorem claim2_rule_sequencing_witness :
    validate_jsonld ⟨none, false⟩ none =
      some { status := "FAIL", issues := [rule1Issue], auto_fixes := [], parsed := none } ∧
    (VResult.mk "FAIL"
        [⟨2, "FAIL", "@context is x, expected https://schema.org"⟩,
         ⟨10, "WARN", "Phone 12 is not E.164 format"⟩]
        [] (some (.obj [("@context", .str "x"), ("telephone", .str "12")]))).issues =
      (rule2 [("@context", .str "x"), ("telephone", .str "12")]).1
        ++ [] ++ [] ++ []
        ++ rule6_issues [[("@context", .str "x"), ("telephone", .str "12")]]
        ++ [] ++ rule9 [[("@context", .str "x"), ("telephone", .str "12")]]
        ++ [⟨10, "WARN", "Phone 12 is not E.164 format"⟩] ++ []
        ++ (rule12 false).1 ++ []
        ++ rule16 [("@context", .str "x"), ("telephone", .str "12")]
             [[("@context", .str "x"), ("telephone", .str "12")]] :=
  ⟨claim2_rule_sequencing.1 false none,
   claim2_rule_sequencing.2 false [("@context", .str "x"), ("telephone", .str "12")] none
     [[("@context", .str "x"), ("telephone", .str "12")]]
     [] [] [] [] [] []
     ([("@context", .str "x"), ("telephone", .str "12")], [],
       [⟨10, "WARN", "Phone 12 is not E.164 format"⟩])
     (VResult.mk "FAIL"
        [⟨2, "FAIL", "@context is x, expected https://schema.org"⟩,
         ⟨10, "WARN", "Phone 12 is not E.164 format"⟩]
        [] (some (.obj [("@context", .str "x"), ("telephone", .str "12")])))
     (by decide) (by decide) (by decide) (by decide) (by decide) (by decide) (by decide)
     (by decide) (by decide)⟩

/-! ### Claim C3 -/

theorem seqIssues_all_nil (f : JObj → Option (List Issue)) :
    ∀ (es : List JObj), (∀ e ∈ es, f e = some []) → seqIssues f es = some []
  | [], _ => rfl
  | e :: rest, h => by
      have he := h e (List.mem_cons_self e rest)
      have ht := seqIssues_all_nil f rest fun x hx => h x (List.mem_cons_of_mem e hx)
      simp [seqIssues, he, ht]

theorem VALID_not_deprecated : ∀ s ∈ VALID_TYPES, DEPRECATED_TYPES.lookup s = none := by
  decide

theorem rule3_entity_ok (e : JObj) (h : entityTypeValid e = true) : rule3_entity e = some [] := by
  unfold entityTypeValid at h
  cases hlk : lookupKey e "@type" with
  | none => rw [hlk] at h; exact absurd h (by simp)
  | some v =>
      rw [hlk] at h
      cases v with
      | str s =>
          have hmem : s ∈ VALID_TYPES := by simpa using h
          by_cases hs : s = ""
          · simp [rule3_entity, getO, hlk, hs, Json.truthy]
          · simp [rule3_entity, getO, hlk, Json.truthy, hs, hmem]
      | null => simp at h
      | bool bb => simp at h
      | num n => simp at h
      | arr xs => simp at h
      | obj o => simp at h

theorem rule4_entity_ok (e : JObj) (h : entityTypeValid e = true)
    (hid : entityMajorHasId e = true) : rule4_entity e = some [] := by
  unfold entityTypeValid at h
  unfold entityMajorHasId at hid
  cases hlk : lookupKey e "@type" with
  | none => rw [hlk] at h; exact absurd h (by simp)
  | some v =>
      rw [hlk] at h
      rw [hlk] at hid
      cases v with
      | str s =>
          by_cases hmaj : s ∈ MAJOR_TYPES
          · have htr : (getO e "@id" Json.null).truthy = true := by
              simp [hmaj] at hid
              exact hid
            simp [rule4_entity, hlk, htr]
          · simp [rule4_entity, hlk, hmaj]
      | null => simp at h
      | bool bb => simp at h
      | num n => simp at h
      | arr xs => simp at h
      | obj o => simp at h

theorem rule5_entity_ok (e : JObj) (h : entityTypeValid e = true) : rule5_entity e = some [] := by
  unfold entityTypeValid at h
  cases hlk : lookupKey e "@type" with
  | none => rw [hlk] at h; exact absurd h (by simp)
  | some v =>
      rw [hlk] at h
      cases v with
      | str s =>
          have hmem : s ∈ VALID_TYPES := by simpa using h
          simp [rule5_entity, getO, hlk, VALID_not_deprecated s hmem]
      | null => simp at h
      | bool bb => simp at h
      | num n => simp at h
      | arr xs => simp at h
      | obj o => simp at h

theorem rule6_entity_nil (e : JObj) (h : entityNoDeprecatedProps e = true) :
    rule6_entity e = [] := by
  unfold entityNoDeprecatedProps at h
  rw [List.all_eq_true] at h
  unfold rule6_entity
  rw [List.filterMap_eq_nil_iff]
  intro kv hkv
  have := h kv hkv
  rw [Option.isNone_iff_eq_none] at this
  simp [this]

theorem rule6_issues_nil (es : List JObj) (h : ∀ e ∈ es, entityNoDeprecatedProps e = true) :
    rule6_issues es = [] := by
  induction es with
  | nil => rfl
  | cons e rest ih =>
      have he := rule6_entity_nil e (h e (List.mem_cons_self e rest))
      have ht := ih fun x hx => h x (List.mem_cons_of_mem e hx)
      simp [rule6_issues, he]
      simpa [rule6_issues] using ht

theorem rule7_entity_ok (e : JObj) (hv : entityTypeValid e = true)
    (h : entityPropsAllowed e = true) : rule7_entity e = some [] := by
  unfold entityTypeValid at hv
  unfold entityPropsAllowed at h
  cases hlk : lookupKey e "@type" with
  | none => rw [hlk] at hv; exact absurd hv (by simp)
  | some v =>
      rw [hlk] at hv
      rw [hlk] at h
      cases v with
      | str s =>
          have h2 : (match INVALID_PROPERTIES.lookup s with
              | some bad => e.all fun kv => !bad.contains kv.1
              | none => true) = true := by simpa using h
          cases hbad : INVALID_PROPERTIES.lookup s with
          | none => simp [rule7_entity, getO, hlk, hbad]
          | some bad =>
              rw [hbad] at h2
              simp only [List.all_eq_true] at h2
              simp only [rule7_entity, getO, hlk, Option.getD_some, hbad]
              congr 1
              rw [List.filterMap_eq_nil_iff]
              intro kv hkv
              have hc := h2 kv hkv
              simp only [Bool.not_eq_true'] at hc
              have hnm : kv.1 ∉ bad := by
                intro hm
                simp [hm] at hc
              simp [hnm]
      | null => simp at hv
      | bool bb => simp at hv
      | num n => simp at hv
      | arr xs => simp at hv
      | obj o => simp at hv

theorem rule9_nil (es : List JObj)
    (h : (∃ e ∈ es, entityFullCountry e = true) ∨ (∀ e ∈ es, entityNotOrgLB e = true)) :
    rule9 es = [] := by
  unfold rule9
  rcases h with ⟨e, he, hfull⟩ | hall
  · have : es.any entityFullCountry = true := List.any_eq_true.mpr ⟨e, he, hfull⟩
    simp [this]
  · have : (es.any fun e =>
        match lookupKey e "@type" with
        | some (.str s) => s == "Organization" || s == "LocalBusiness"
        | _ => false) = false := by
      rw [List.any_eq_false]
      intro e he
      have := hall e he
      unfold entityNotOrgLB at this
      cases hlk : lookupKey e "@type" with
      | none => simp [hlk]
      | some v =>
          rw [hlk] at this
          cases v <;> simp_all
    simp [this]

theorem rule10_entity_stable0 (e : JObj) (h : entityPhoneOK e = true) :
    rule10_entity e = some (e, [], []) := by
  unfold entityPhoneOK at h
  cases hlk : lookupKey e "telephone" with
  | none => simp [rule10_entity, getO, hlk, Json.truthy]
  | some v =>
      rw [hlk] at h
      cases v with
      | str s =>
          by_cases hs : s = ""
          · simp [rule10_entity, getO, hlk, hs, Json.truthy]
          · have hm : e164Match s = true := by simpa [Json.truthy, hs] using h
            simp [rule10_entity, getO, hlk, Json.truthy, hs, hm]
      | null => simp [rule10_entity, getO, hlk, Json.truthy]
      | bool bb =>
          have : bb = false := by simpa [Json.truthy] using h
          subst this
          simp [rule10_entity, getO, hlk, Json.truthy]
      | num n =>
          have : n = 0 := by simpa [Json.truthy] using h
          subst this
          simp [rule10_entity, getO, hlk, Json.truthy]
      | arr xs =>
          have : xs = [] := by simpa [Json.truthy] using h
          subst this
          simp [rule10_entity, getO, hlk, Json.truthy]
      | obj o =>
          have : o = [] := by simpa [Json.truthy] using h
          subst this
          simp [rule10_entity, getO, hlk, Json.truthy]

theorem rule10_nested_stable :
    ∀ (b : JObj),
      (∀ kv ∈ b, ∀ o, kv.2 = .obj o → hasKeyO o "@type" = true →
        rule10_entity o = some (o, [], [])) →
      rule10_nested b = some (b, [], [])
  | [], _ => rfl
  | (k, v) :: rest, h => by
      have ht : seqStep rule10_nestedStep rest = some (rest, [], []) :=
        rule10_nested_stable rest fun kv hkv => h kv (List.mem_cons_of_mem _ hkv)
      cases v with
      | obj o =>
          by_cases hty : hasKeyO o "@type" = true
          · have he := h (k, .obj o) (List.mem_cons_self _ rest) o rfl hty
            simp [rule10_nested, seqStep, rule10_nestedStep, hty, he, ht]
          · simp [rule10_nested, seqStep, rule10_nestedStep, hty, ht]
      | null => simp [rule10_nested, seqStep, rule10_nestedStep, ht]
      | bool bb => simp [rule10_nested, seqStep, rule10_nestedStep, ht]
      | num n => simp [rule10_nested, seqStep, rule10_nestedStep, ht]
      | str s => simp [rule10_nested, seqStep, rule10_nestedStep, ht]
      | arr xs => simp [rule10_nested, seqStep, rule10_nestedStep, ht]

theorem rule10_doc_stable (doc : JObj) (hg : lookupKey doc "@graph" = none)
    (he : rule10_entity doc = some (doc, [], []))
    (hn : rule10_nested doc = some (doc, [], [])) :
    rule10_doc doc = some (doc, [], []) := by
  unfold rule10_doc
  rw [hg]
  simp [he, hn]

theorem rule11_props_ok (e : JObj) :
    ∀ (ps : List String),
      (∀ p ∈ ps, (match lookupKey e p with
        | none => true
        | some v => !v.truthy || (match v with | .str s => is_valid_date s | _ => false)) = true) →
      rule11_props e ps = some []
  | [], _ => rfl
  | p :: rest, h => by
      have ht := rule11_props_ok e rest fun q hq => h q (List.mem_cons_of_mem _ hq)
      have hp := h p (List.mem_cons_self p rest)
      cases hlk : lookupKey e p with
      | none => simp [rule11_props, getO, hlk, ht]
      | some v =>
          rw [hlk] at hp
          cases v with
          | str s =>
              by_cases hs : s = ""
              · simp [rule11_props, getO, hlk, hs, ht]
              · have hd : is_valid_date s = true := by simpa [Json.truthy, hs] using hp
                simp [rule11_props, getO, hlk, hs, hd, ht]
          | null => simp [rule11_props, getO, hlk, Json.truthy, ht]
          | bool bb =>
              have : bb = false := by simpa [Json.truthy] using hp
              subst this
              simp [rule11_props, getO, hlk, Json.truthy, ht]
          | num n =>
              have : n = 0 := by simpa [Json.truthy] using hp
              subst this
              simp [rule11_props, getO, hlk, Json.truthy, ht]
          | arr xs =>
              have : xs = [] := by simpa [Json.truthy] using hp
              subst this
              simp [rule11_props, getO, hlk, Json.truthy, ht]
          | obj o =>
              have : o = [] := by simpa [Json.truthy] using hp
              subst this
              simp [rule11_props, getO, hlk, Json.truthy, ht]

theorem rule11_entity_ok (e : JObj) (h : entityDatesOK e = true) :
    rule11_entity e = some [] := by
  unfold entityDatesOK at h
  rw [List.all_eq_true] at h
  exact rule11_props_ok e DATE_PROPS h

theorem rule2_canonical (doc : JObj)
    (hctx : lookupKey doc "@context" = some (.str CANONICAL_CONTEXT)) :
    rule2 doc = ([], [], doc) := by
  simp [rule2, getO, hctx, Json.truthy, CANONICAL_CONTEXT]

/-- Claim C3 counterexample: a single-entity Organization document with the
canonical context, a valid non-deprecated type, a non-empty `@id`, no
deprecated or disallowed properties and no phone/date fields — every
hypothesis of the claim — still validates to status WARN with a non-empty
issue list, because Rule 9 warns when no postal-address country is fully
defined. -/
theorem claim3_counterexample :
    entityTypeValid [("@context", Json.str "https://schema.org"),
      ("@type", Json.str "Organization"), ("@id", Json.str "https://acme.com/#Organization")] = true ∧
    entityMajorHasId [("@context", Json.str "https://schema.org"),
      ("@type", Json.str "Organization"), ("@id", Json.str "https://acme.com/#Organization")] = true ∧
    entityNoDeprecatedProps [("@context", Json.str "https://schema.org"),
      ("@type", Json.str "Organization"), ("@id", Json.str "https://acme.com/#Organization")] = true ∧
    entityPropsAllowed [("@context", Json.str "https://schema.org"),
      ("@type", Json.str "Organization"), ("@id", Json.str "https://acme.com/#Organization")] = true ∧
    entityPhoneOK [("@context", Json.str "https://schema.org"),
      ("@type", Json.str "Organization"), ("@id", Json.str "https://acme.com/#Organization")] = true ∧
    entityDatesOK [("@context", Json.str "https://schema.org"),
      ("@type", Json.str "Organization"), ("@id", Json.str "https://acme.com/#Organization")] = true ∧
    nestedOfEntity [("@context", Json.str "https://schema.org"),
      ("@type", Json.str "Organization"), ("@id", Json.str "https://acme.com/#Organization")] = [] ∧
    validate_jsonld ⟨some (.obj [("@context", Json.str "https://schema.org"),
      ("@type", Json.str "Organization"), ("@id", Json.str "https://acme.com/#Organization")]),
      false⟩ none =
      some { status := "WARN",
             issues := [⟨9, "WARN", "Country entity not fully defined in any PostalAddress"⟩],
             auto_fixes := [],
             parsed := some (.obj [("@context", Json.str "https://schema.org"),
               ("@type", Json.str "Organization"),
               ("@id", Json.str "https://acme.com/#Organization")]) } := by
  decide

/-- Claim C3 as amended: a single-entity (no `@graph`) document with the
canonical context, every extracted entity carrying a valid allow-listed
(hence non-deprecated) type, major-typed entities carrying a truthy `@id`,
no deprecated or type-disallowed properties, well-formed telephone and date
values, no script tag in the raw text, no global-id set supplied, and —
additionally, as forced by the Rule 9 counterexample — either some entity
fully defining its postal-address country or no Organization/LocalBusiness
entity at all, validates to PASS with an empty issue list, no auto-fixes,
and the document returned unchanged. -/
theorem claim3_pass_characterization (doc : JObj)
    (hg : lookupKey doc "@graph" = none)
    (hctx : lookupKey doc "@context" = some (.str CANONICAL_CONTEXT))
    (htype : ∀ e ∈ doc :: nestedOfEntity doc, entityTypeValid e = true)
    (hid : ∀ e ∈ doc :: nestedOfEntity doc, entityMajorHasId e = true)
    (hdep : ∀ e ∈ doc :: nestedOfEntity doc, entityNoDeprecatedProps e = true)
    (hprops : ∀ e ∈ doc :: nestedOfEntity doc, entityPropsAllowed e = true)
    (hcountry : (∃ e ∈ doc :: nestedOfEntity doc, entityFullCountry e = true) ∨
      (∀ e ∈ doc :: nestedOfEntity doc, entityNotOrgLB e = true))
    (hphone : ∀ e ∈ doc :: nestedOfEntity doc, entityPhoneOK e = true)
    (hdate : ∀ e ∈ doc :: nestedOfEntity doc, entityDatesOK e = true) :
    validate_jsonld ⟨some (.obj doc), false⟩ none =
      some { status := "PASS", issues := [], auto_fixes := [], parsed := some (.obj doc) } := by
  have hes : extract_entities doc = some (doc :: nestedOfEntity doc) := by
    simp [extract_entities, topEntities, hg]
  have hmemdoc : doc ∈ doc :: nestedOfEntity doc := List.mem_cons_self _ _
  have h2 := rule2_canonical doc hctx
  have htop : rule10_entity doc = some (doc, [], []) :=
    rule10_entity_stable0 doc (hphone doc hmemdoc)
  have hnst : rule10_nested doc = some (doc, [], []) := by
    apply rule10_nested_stable
    intro kv hkv o hvo hty
    apply rule10_entity_stable0
    apply hphone
    apply List.mem_cons_of_mem
    apply List.mem_filterMap.mpr
    exact ⟨kv, hkv, by simp [hvo, hty]⟩
  have h10 : rule10_doc doc = some (doc, [], []) :=
    rule10_doc_stable doc hg htop hnst
  have h3 := seqIssues_all_nil rule3_entity _ fun e he => rule3_entity_ok e (htype e he)
  have h4 := seqIssues_all_nil rule4_entity _ fun e he => rule4_entity_ok e (htype e he) (hid e he)
  have h5 := seqIssues_all_nil rule5_entity _ fun e he => rule5_entity_ok e (htype e he)
  have h7 := seqIssues_all_nil rule7_entity _
    fun e he => rule7_entity_ok e (htype e he) (hprops e he)
  have h11 := seqIssues_all_nil rule11_entity _ fun e he => rule11_entity_ok e (hdate e he)
  have h6 := rule6_issues_nil _ hdep
  have h9 := rule9_nil _ hcountry
  have h16 : rule16 doc (doc :: nestedOfEntity doc) = [] := by
    simp [rule16, hasKeyO, hg]
  simp only [validate_jsonld, validate_parsed, hes, h3, h4, h5, h7, h11, h2, rule13]
  simp [h10, h6, h9, h16, rule12, _result]

/-- Witness for claim C3: a concrete Organization document with canonical
context, valid vocabulary, an `@id`, an E.164 phone, an ISO date and a fully
defined country passes with no issues. -/
theorem claim3_pass_characterization_witness :
    validate_jsonld ⟨some (.obj
      [("@context", .str "https://schema.org"),
       ("@type", .str "Organization"),
       ("@id", .str "https://acme.com/#Organization"),
       ("name", .str "Acme"),
       ("telephone", .str "+14045551234"),
       ("foundingDate", .str "2008-03-15"),
       ("address", .obj
         [("@type", .str "PostalAddress"),
          ("addressCountry", .obj
            [("@type", .str "Country"),
             ("name", .str "United States"),
             ("@id", .str "http://www.wikidata.org/entity/Q30")])])]), false⟩ none =
      some { status := "PASS", issues := [], auto_fixes := [],
             parsed := some (.obj
               [("@context", .str "https://schema.org"),
                ("@type", .str "Organization"),
                ("@id", .str "https://acme.com/#Organization"),
                ("name", .str "Acme"),
                ("telephone", .str "+14045551234"),
                ("foundingDate", .str "2008-03-15"),
                ("address", .obj
                  [("@type", .str "PostalAddress"),
                   ("addressCountry", .obj
                     [("@type", .str "Country"),
                      ("name", .str "United States"),
                      ("@id", .str "http://www.wikidata.org/entity/Q30")])])]) } :=
  claim3_pass_characterization _ (by decide) (by decide) (by decide) (by decide) (by decide)
    (by decide) (by decide) (by decide) (by decide)

/-! ### Claim C5 -/

/-- Claim C5: with the global-id set containing
`https://x.com/#Organization`, a document holding the bare reference
`{"@id": "https://x.com/#Organization"}` (no `@type`) gets no Rule 13
issue; and a bare reference to any non-empty id that is not defined locally,
not in the global set, and not of a recognized external prefix gets exactly
one Rule 13 WARN. -/
theorem claim5_reference_resolution :
    ((validate_jsonld ⟨some (.obj
        [("@context", .str "https://schema.org"),
         ("@type", .str "Organization"),
         ("@id", .str "https://ex.com/#org"),
         ("foundingLocation", .obj [("@id", .str "https://x.com/#Organization")])]), false⟩
        (some ["https://x.com/#Organization"])).map
          (fun r => r.issues.filter (fun i => i.rule == 13)) = some []) ∧
    (∀ ref : String, ref ≠ "" →
      strStartsWith ref "http://www.wikidata.org" = false →
      strStartsWith ref "https://g.co" = false →
      strStartsWith ref "https://www.google.com/maps" = false →
      ref ≠ "https://ex.com/#org" →
      ref ≠ "https://x.com/#Organization" →
      (validate_jsonld ⟨some (.obj
        [("@context", .str "https://schema.org"),
         ("@type", .str "Organization"),
         ("@id", .str "https://ex.com/#org"),
         ("foundingLocation", .obj [("@id", .str ref)])]), false⟩
        (some ["https://x.com/#Organization"])).map
          (fun r => r.issues.filter (fun i => i.rule == 13)) =
        some [⟨13, "WARN", "Unresolved @id reference: " ++ ref⟩]) := by
  constructor
  · decide
  · intro ref h1 h2 h3 h4 h5 h6
    simp [validate_jsonld, validate_parsed, extract_entities, topEntities, nestedOfEntity,
      lookupKey, hasKeyO, rule2, getO, Json.truthy, seqIssues, rule3_entity, rule4_entity,
      rule5_entity, rule6_issues, rule6_entity, rule7_entity, rule9, entityFullCountry,
      rule10_doc, rule10_entity, rule10_nested, seqStep, rule10_nestedStep,
      rule11_entity, rule11_props, rule12, rule13,
      localIdsOf, seqRefs, check_id_refs, checkRefVal, bareRefIssue, rule16, _result,
      h1, h2, h3, h4, h5, h6, VALID_TYPES, MAJOR_TYPES, DEPRECATED_TYPES,
      DEPRECATED_PROPERTIES, INVALID_PROPERTIES, DATE_PROPS, CANONICAL_CONTEXT,
      LEGACY_CONTEXTS, List.lookup, List.filter, List.filterMap]

/-- Witness for claim C5 at the unregistered reference
`https://y.com/#nope`. -/
theorem claim5_reference_resolution_witness :
    (validate_jsonld ⟨some (.obj
        [("@context", .str "https://schema.org"),
         ("@type", .str "Organization"),
         ("@id", .str "https://ex.com/#org"),
         ("foundingLocation", .obj [("@id", .str "https://y.com/#nope")])]), false⟩
        (some ["https://x.com/#Organization"])).map
          (fun r => r.issues.filter (fun i => i.rule == 13)) =
      some [⟨13, "WARN", "Unresolved @id reference: " ++ "https://y.com/#nope"⟩] :=
  claim5_reference_resolution.2 "https://y.com/#nope" (by decide) (by decide) (by decide)
    (by decide) (by decide) (by decide)

/-! ### Rule 10 structure lemmas (used by claims C7 and C8) -/

theorem seqStep_cons_inv {α : Type} (g : α → Option (α × List String × List Issue))
    (x : α) (rest : List α) (R : List α × List String × List Issue)
    (h : seqStep g (x :: rest) = some R) :
    ∃ r1 r2, g x = some r1 ∧ seqStep g rest = some r2 ∧
      R = (r1.1 :: r2.1, r1.2.1 ++ r2.2.1, r1.2.2 ++ r2.2.2) := by
  cases hx : g x with
  | none => simp [seqStep, hx] at h
  | some r1 =>
      cases hr : seqStep g rest with
      | none => simp [seqStep, hx, hr] at h
      | some r2 =>
          simp only [seqStep, hx, hr, Option.some.injEq] at h
          exact ⟨r1, r2, rfl, rfl, h.symm⟩

theorem seqStep_issues_prop {α : Type} (g : α → Option (α × List String × List Issue))
    (p : Issue → Prop)
    (hg : ∀ x r, g x = some r → ∀ i ∈ r.2.2, p i) :
    ∀ (l : List α) (R : List α × List String × List Issue),
      seqStep g l = some R → ∀ i ∈ R.2.2, p i
  | [], R, h => by
      cases h
      intro i hi
      simp at hi
  | x :: rest, R, h => by
      obtain ⟨r1, r2, hx, hr, rfl⟩ := seqStep_cons_inv g x rest R h
      intro i hi
      rcases List.mem_append.mp hi with h2 | h2
      · exact hg x r1 hx i h2
      · exact seqStep_issues_prop g p hg rest r2 hr i h2

theorem seqStep_fixes_prop {α : Type} (g : α → Option (α × List String × List Issue))
    (q : String → Prop)
    (hg : ∀ x r, g x = some r → ∀ m ∈ r.2.1, q m) :
    ∀ (l : List α) (R : List α × List String × List Issue),
      seqStep g l = some R → ∀ m ∈ R.2.1, q m
  | [], R, h => by
      cases h
      intro m hm
      simp at hm
  | x :: rest, R, h => by
      obtain ⟨r1, r2, hx, hr, rfl⟩ := seqStep_cons_inv g x rest R h
      intro m hm
      rcases List.mem_append.mp hm with h2 | h2
      · exact hg x r1 hx m h2
      · exact seqStep_fixes_prop g q hg rest r2 hr m h2

theorem seqStep_idem {α : Type} (g : α → Option (α × List String × List Issue))
    (hg : ∀ x r, g x = some r → ∃ i2, g r.1 = some (r.1, [], i2)) :
    ∀ (l : List α) (R : List α × List String × List Issue),
      seqStep g l = some R → ∃ i2, seqStep g R.1 = some (R.1, [], i2)
  | [], R, h => by
      cases h
      exact ⟨[], rfl⟩
  | x :: rest, R, h => by
      obtain ⟨r1, r2, hx, hr, rfl⟩ := seqStep_cons_inv g x rest R h
      obtain ⟨i1, h1⟩ := hg x r1 hx
      obtain ⟨i2, h2⟩ := seqStep_idem g hg rest r2 hr
      exact ⟨i1 ++ i2, by simp [seqStep, h1, h2]⟩

theorem seqStep_comp {α : Type} (g1 g2 : α → Option (α × List String × List Issue))
    (hpt : ∀ x r1 r2, g1 x = some r1 → g2 r1.1 = some r2 →
      (∃ i, g1 r2.1 = some (r2.1, [], i)) ∧ (∃ i, g2 r2.1 = some (r2.1, [], i))) :
    ∀ (l : List α) (R1 R2 : List α × List String × List Issue),
      seqStep g1 l = some R1 → seqStep g2 R1.1 = some R2 →
      (∃ i, seqStep g1 R2.1 = some (R2.1, [], i)) ∧
      (∃ i, seqStep g2 R2.1 = some (R2.1, [], i))
  | [], R1, R2, h1, h2 => by
      cases h1
      cases h2
      exact ⟨⟨[], rfl⟩, ⟨[], rfl⟩⟩
  | x :: rest, R1, R2, h1, h2 => by
      obtain ⟨r1, q1, hx1, hr1, rfl⟩ := seqStep_cons_inv g1 x rest R1 h1
      obtain ⟨r2, q2, hx2, hr2, rfl⟩ := seqStep_cons_inv g2 r1.1 q1.1 R2 h2
      obtain ⟨hA, hB⟩ := hpt x r1 r2 hx1 hx2
      obtain ⟨hC, hD⟩ := seqStep_comp g1 g2 hpt rest q1 q2 hr1 hr2
      obtain ⟨iA, hA⟩ := hA
      obtain ⟨iB, hB⟩ := hB
      obtain ⟨iC, hC⟩ := hC
      obtain ⟨iD, hD⟩ := hD
      exact ⟨⟨iA ++ iC, by simp [seqStep, hA, hC]⟩, ⟨iB ++ iD, by simp [seqStep, hB, hD]⟩⟩

theorem getLast?_mem : ∀ (l : List Char) (c : Char), l.getLast? = some c → c ∈ l
  | [], c, h => by simp at h
  | [a], c, h => by
      simp [List.getLast?] at h
      simp [h]
  | a :: b :: t, c, h => by
      rw [List.getLast?_cons_cons] at h
      exact List.mem_cons_of_mem a (getLast?_mem (b :: t) c h)

theorem e164Match_plus (cs : List Char) (hall : ∀ c ∈ cs, c.isDigit = true)
    (h10 : 10 ≤ cs.length) (h15 : cs.length ≤ 15) :
    e164Match (String.mk ('+' :: cs)) = true := by
  have hlast : ¬(('+' :: cs).getLast? = some '\n') := by
    intro hc
    rcases List.mem_cons.mp (getLast?_mem _ _ hc) with h | h
    · exact absurd h (by decide)
    · exact absurd (hall _ h) (by decide)
  simp only [e164Match, hlast, if_neg, List.all_eq_true]
  simp [h10, h15]
  exact hall

theorem stripNonDigits_digits (s : String) : ∀ c ∈ (stripNonDigits s).data, c.isDigit = true := by
  intro c hc
  simp only [stripNonDigits] at hc
  exact (List.mem_filter.mp hc).2

theorem plus1_append_eq (d : String) : "+1" ++ d = String.mk ('+' :: '1' :: d.data) := by
  apply String.ext
  rw [strData_append]
  rfl

theorem plus_append_eq (d : String) : "+" ++ d = String.mk ('+' :: d.data) := by
  apply String.ext
  rw [strData_append]
  rfl

theorem strLength_data (s : String) : s.length = s.data.length := rfl

theorem e164Match_plus1_fix (s : String) (h10 : (stripNonDigits s).length = 10) :
    e164Match ("+1" ++ stripNonDigits s) = true := by
  have hd : (stripNonDigits s).data.length = 10 := h10
  rw [plus1_append_eq]
  apply e164Match_plus
  · intro c hc
    rcases List.mem_cons.mp hc with h | h
    · subst h; decide
    · exact stripNonDigits_digits s c h
  · simp [hd]
  · simp [hd]

theorem e164Match_plus_fix (s : String) (h11 : (stripNonDigits s).length = 11) :
    e164Match ("+" ++ stripNonDigits s) = true := by
  have hd : (stripNonDigits s).data.length = 11 := h11
  rw [plus_append_eq]
  apply e164Match_plus
  · exact stripNonDigits_digits s
  · simp [hd]
  · simp [hd]

theorem strMk_cons_ne_empty (c : Char) (l : List Char) : String.mk (c :: l) ≠ "" := by
  intro h
  have := congrArg String.data h
  simp at this

/-- Full case analysis of one Rule 10 entity step. -/
theorem rule10_entity_inv (e e1 : JObj) (f : List String) (i : List Issue)
    (h : rule10_entity e = some (e1, f, i)) :
    ((getO e "telephone" (.str "")).truthy = false ∧ e1 = e ∧ f = [] ∧ i = []) ∨
    (∃ s, lookupKey e "telephone" = some (.str s) ∧ s ≠ "" ∧
      ((e164Match s = true ∧ e1 = e ∧ f = [] ∧ i = []) ∨
       (e164Match s = false ∧ (stripNonDigits s).length = 10 ∧
         e1 = setKey e "telephone" (.str ("+1" ++ stripNonDigits s)) ∧
         f = [phoneFixMsg ("+1" ++ stripNonDigits s)] ∧ i = []) ∨
       (e164Match s = false ∧ (stripNonDigits s).length ≠ 10 ∧
         (stripNonDigits s).length = 11 ∧ strStartsWith (stripNonDigits s) "1" = true ∧
         e1 = setKey e "telephone" (.str ("+" ++ stripNonDigits s)) ∧
         f = [phoneFixMsg ("+" ++ stripNonDigits s)] ∧ i = []) ∨
       (e164Match s = false ∧ (stripNonDigits s).length ≠ 10 ∧
         ¬((stripNonDigits s).length = 11 ∧ strStartsWith (stripNonDigits s) "1" = true) ∧
         e1 = e ∧ f = [] ∧
         i = [⟨10, "WARN", "Phone " ++ s ++ " is not E.164 format"⟩]))) := by
  simp only [rule10_entity] at h
  split at h
  · rename_i hc
    left
    simp only [Option.some.injEq, Prod.mk.injEq] at h
    obtain ⟨rfl, rfl, rfl⟩ := h
    exact ⟨hc, rfl, rfl, rfl⟩
  · rename_i hc
    split at h
    case h_2 v hv =>
      exact absurd h (by simp)
    case h_1 s hs =>
      right
      have hlk : lookupKey e "telephone" = some (.str s) := by
        cases hl : lookupKey e "telephone" with
        | none =>
            rw [getO, hl] at hs
            simp at hs
            subst hs
            rw [getO, hl] at hc
            simp [Json.truthy] at hc
        | some v => rw [getO, hl] at hs; simp at hs; rw [hs]
      have hne : s ≠ "" := by
        intro hz
        subst hz
        rw [hs] at hc
        simp [Json.truthy] at hc
      refine ⟨s, hlk, hne, ?_⟩
      split at h
      · rename_i hm
        simp only [Option.some.injEq, Prod.mk.injEq] at h
        obtain ⟨rfl, rfl, rfl⟩ := h
        exact Or.inl ⟨hm, rfl, rfl, rfl⟩
      · rename_i hm
        rw [Bool.not_eq_true] at hm
        split at h
        · rename_i h10
          simp only [Option.some.injEq, Prod.mk.injEq] at h
          obtain ⟨rfl, rfl, rfl⟩ := h
          exact Or.inr (Or.inl ⟨hm, h10, rfl, rfl, rfl⟩)
        · rename_i h10
          split at h
          · rename_i h11
            simp only [Option.some.injEq, Prod.mk.injEq] at h
            obtain ⟨rfl, rfl, rfl⟩ := h
            exact Or.inr (Or.inr (Or.inl ⟨hm, h10, h11.1, h11.2, rfl, rfl, rfl⟩))
          · rename_i h11
            simp only [Option.some.injEq, Prod.mk.injEq] at h
            obtain ⟨rfl, rfl, rfl⟩ := h
            exact Or.inr (Or.inr (Or.inr ⟨hm, h10, h11, rfl, rfl, rfl⟩))

theorem hasKey_setKey (o : JObj) (k : String) (v : Json) (k2 : String) :
    hasKeyO (setKey o k v) k2 = ((k2 == k) || hasKeyO o k2) := by
  by_cases h : k2 = k
  · subst h
    simp [hasKeyO, lookupKey_setKey_self]
  · simp [hasKeyO, lookupKey_setKey_other _ _ _ _ h, h]

/-- A re-run of the Rule 10 entity step on any entity whose telephone equals
the output's telephone neither fixes nor changes anything. -/
theorem rule10_entity_stable (e e1 : JObj) (f : List String) (i : List Issue) (e2 : JObj)
    (h : rule10_entity e = some (e1, f, i))
    (hph : lookupKey e2 "telephone" = lookupKey e1 "telephone") :
    ∃ i2, rule10_entity e2 = some (e2, [], i2) := by
  rcases rule10_entity_inv e e1 f i h with
    ⟨hc, rfl, -, -⟩ |
    ⟨s, hlk, hne, ⟨hm, rfl, -, -⟩ | ⟨hm, h10, rfl, -, -⟩ |
      ⟨hm, h10, h11, hst, rfl, -, -⟩ | ⟨hm, h10, h11, rfl, -, -⟩⟩
  · have hgo : getO e2 "telephone" (.str "") = getO e1 "telephone" (.str "") := by
      simp [getO, hph]
    exact ⟨[], by simp [rule10_entity, hgo, hc]⟩
  · have hgo : getO e2 "telephone" (.str "") = .str s := by
      simp [getO, hph, hlk]
    exact ⟨[], by simp [rule10_entity, hgo, Json.truthy, hne, hm]⟩
  · have hself : lookupKey e2 "telephone" = some (.str ("+1" ++ stripNonDigits s)) := by
      rw [hph, lookupKey_setKey_self]
    have hgo : getO e2 "telephone" (.str "") = .str ("+1" ++ stripNonDigits s) := by
      simp [getO, hself]
    have hne2 : ("+1" ++ stripNonDigits s) ≠ "" := by
      rw [plus1_append_eq]
      exact strMk_cons_ne_empty _ _
    exact ⟨[], by simp [rule10_entity, hgo, Json.truthy, hne2, e164Match_plus1_fix s h10]⟩
  · have hself : lookupKey e2 "telephone" = some (.str ("+" ++ stripNonDigits s)) := by
      rw [hph, lookupKey_setKey_self]
    have hgo : getO e2 "telephone" (.str "") = .str ("+" ++ stripNonDigits s) := by
      simp [getO, hself]
    have hne2 : ("+" ++ stripNonDigits s) ≠ "" := by
      rw [plus_append_eq]
      exact strMk_cons_ne_empty _ _
    exact ⟨[], by simp [rule10_entity, hgo, Json.truthy, hne2, e164Match_plus_fix s h11]⟩
  · have hgo : getO e2 "telephone" (.str "") = .str s := by
      simp [getO, hph, hlk]
    exact ⟨[⟨10, "WARN", "Phone " ++ s ++ " is not E.164 format"⟩],
      by simp [rule10_entity, hgo, Json.truthy, hne, hm, h10, h11]⟩

theorem rule10_entity_idem (e e1 : JObj) (f : List String) (i : List Issue)
    (h : rule10_entity e = some (e1, f, i)) :
    ∃ i2, rule10_entity e1 = some (e1, [], i2) :=
  rule10_entity_stable e e1 f i e1 h rfl

theorem rule10_entity_keys (e e1 : JObj) (f : List String) (i : List Issue)
    (h : rule10_entity e = some (e1, f, i)) :
    ∀ k2, hasKeyO e1 k2 = hasKeyO e k2 := by
  intro k2
  rcases rule10_entity_inv e e1 f i h with
    ⟨-, rfl, -, -⟩ |
    ⟨s, hlk, -, ⟨-, rfl, -, -⟩ | ⟨-, -, rfl, -, -⟩ | ⟨-, -, -, -, rfl, -, -⟩ | ⟨-, -, -, rfl, -, -⟩⟩
  · rfl
  · rfl
  · rw [hasKey_setKey]
    by_cases hk : k2 = "telephone"
    · subst hk
      simp [hasKeyO, hlk]
    · simp [hk]
  · rw [hasKey_setKey]
    by_cases hk : k2 = "telephone"
    · subst hk
      simp [hasKeyO, hlk]
    · simp [hk]
  · rfl

theorem rule10_entity_lookup_other (e e1 : JObj) (f : List String) (i : List Issue)
    (h : rule10_entity e = some (e1, f, i)) :
    ∀ k2, k2 ≠ "telephone" → lookupKey e1 k2 = lookupKey e k2 := by
  intro k2 hk
  rcases rule10_entity_inv e e1 f i h with
    ⟨-, rfl, -, -⟩ |
    ⟨s, -, -, ⟨-, rfl, -, -⟩ | ⟨-, -, rfl, -, -⟩ | ⟨-, -, -, -, rfl, -, -⟩ | ⟨-, -, -, rfl, -, -⟩⟩
  · rfl
  · rfl
  · exact lookupKey_setKey_other _ _ _ _ hk
  · exact lookupKey_setKey_other _ _ _ _ hk
  · rfl

theorem rule10_entity_tel_not_obj (e e1 : JObj) (f : List String) (i : List Issue)
    (h : rule10_entity e = some (e1, f, i)) :
    ∀ o2, lookupKey e1 "telephone" = some (.obj o2) → hasKeyO o2 "@type" = false := by
  intro o2 ho
  rcases rule10_entity_inv e e1 f i h with
    ⟨hc, rfl, -, -⟩ |
    ⟨s, hlk, -, ⟨-, rfl, -, -⟩ | ⟨-, -, rfl, -, -⟩ | ⟨-, -, -, -, rfl, -, -⟩ | ⟨-, -, -, rfl, -, -⟩⟩
  · rw [getO, ho] at hc
    simp [Json.truthy] at hc
    subst hc
    rfl
  · rw [hlk] at ho
    simp at ho
  · rw [lookupKey_setKey_self] at ho
    simp at ho
  · rw [lookupKey_setKey_self] at ho
    simp at ho
  · rw [hlk] at ho
    simp at ho

theorem rule10_nestedStep_inv (kv : String × Json) (r : (String × Json) × List String × List Issue)
    (h : rule10_nestedStep kv = some r) :
    r.1.1 = kv.1 ∧
    ((r.1.2 = kv.2 ∧ r.2.1 = [] ∧ r.2.2 = []) ∨
     (∃ o o1 f1 i1, kv.2 = Json.obj o ∧ hasKeyO o "@type" = true ∧
       rule10_entity o = some (o1, f1, i1) ∧ r.1.2 = Json.obj o1 ∧ r.2.1 = f1 ∧ r.2.2 = i1)) := by
  obtain ⟨k0, v⟩ := kv
  obtain ⟨⟨rk, rv⟩, rf, ri⟩ := r
  cases v
  case obj o =>
    simp only [rule10_nestedStep] at h
    by_cases hty : hasKeyO o "@type" = true
    · rw [if_pos hty] at h
      cases he : rule10_entity o with
      | none =>
          rw [he] at h
          simp at h
      | some t =>
          rw [he] at h
          simp only [Option.map_some', Option.some.injEq, Prod.mk.injEq] at h
          obtain ⟨⟨rfl, rfl⟩, rfl, rfl⟩ := h
          exact ⟨rfl, Or.inr ⟨o, t.1, t.2.1, t.2.2, rfl, hty, he, rfl, rfl, rfl⟩⟩
    · rw [if_neg hty] at h
      simp only [Option.some.injEq, Prod.mk.injEq] at h
      obtain ⟨⟨rfl, rfl⟩, rfl, rfl⟩ := h
      exact ⟨rfl, Or.inl ⟨rfl, rfl, rfl⟩⟩
  all_goals
    (simp only [rule10_nestedStep, Option.some.injEq, Prod.mk.injEq] at h;
     obtain ⟨⟨rfl, rfl⟩, rfl, rfl⟩ := h;
     exact ⟨rfl, Or.inl ⟨rfl, rfl, rfl⟩⟩)

theorem rule10_nestedStep_idem (kv : String × Json) (r : (String × Json) × List String × List Issue)
    (h : rule10_nestedStep kv = some r) :
    ∃ i2, rule10_nestedStep r.1 = some (r.1, [], i2) := by
  obtain ⟨k0, v⟩ := kv
  obtain ⟨⟨rk, rv⟩, rf, ri⟩ := r
  obtain ⟨hk, hdisj⟩ := rule10_nestedStep_inv (k0, v) ((rk, rv), rf, ri) h
  subst hk
  rcases hdisj with ⟨hv, hf, hi⟩ | ⟨o, o1, f1, i1, hvv, hty, he, hrv, hf, hi⟩
  · subst hv
    subst hf
    subst hi
    exact ⟨[], h⟩
  · subst hvv
    subst hrv
    have hty1 : hasKeyO o1 "@type" = true := by
      rw [rule10_entity_keys o o1 f1 i1 he "@type"]
      exact hty
    obtain ⟨i2, hid⟩ := rule10_entity_idem o o1 f1 i1 he
    exact ⟨i2, by simp [rule10_nestedStep, hty1, hid]⟩

theorem rule10_nested_idem (b b1 : JObj) (f : List String) (i : List Issue)
    (h : rule10_nested b = some (b1, f, i)) :
    ∃ i2, rule10_nested b1 = some (b1, [], i2) :=
  seqStep_idem rule10_nestedStep rule10_nestedStep_idem b (b1, f, i) h

theorem rule10_nested_lookup : ∀ (b b1 : JObj) (f : List String) (i : List Issue) (k : String),
    rule10_nested b = some (b1, f, i) →
    lookupKey b1 k = lookupKey b k ∨
    (∃ o o1 f1 i1, lookupKey b k = some (Json.obj o) ∧ hasKeyO o "@type" = true ∧
      rule10_entity o = some (o1, f1, i1) ∧ lookupKey b1 k = some (Json.obj o1))
  | [], b1, f, i, k, h => by
      simp only [rule10_nested, seqStep, Option.some.injEq, Prod.mk.injEq] at h
      obtain ⟨rfl, rfl, rfl⟩ := h
      exact Or.inl rfl
  | (k0, v) :: rest, b1, f, i, k, h => by
      obtain ⟨r1, r2, hx, hr, heq⟩ := seqStep_cons_inv rule10_nestedStep (k0, v) rest (b1, f, i) h
      obtain ⟨⟨rk, rv⟩, rf, ri⟩ := r1
      simp only [Prod.mk.injEq] at heq
      obtain ⟨hb1, -, -⟩ := heq
      obtain ⟨hk0, hdisj⟩ := rule10_nestedStep_inv (k0, v) ((rk, rv), rf, ri) hx
      have hkc : rk = k0 := hk0
      have hd : (rv = v ∧ rf = [] ∧ ri = []) ∨
          (∃ o o1 f1 i1, v = Json.obj o ∧ hasKeyO o "@type" = true ∧
            rule10_entity o = some (o1, f1, i1) ∧ rv = Json.obj o1 ∧ rf = f1 ∧ ri = i1) :=
        hdisj
      subst hkc
      subst hb1
      by_cases hkk : rk = k
      · rcases hd with ⟨hv, -, -⟩ | ⟨o, o1, f1, i1, hvv, hty, he, hrv, -, -⟩
        · exact Or.inl (by simp [lookupKey, hkk, hv])
        · exact Or.inr ⟨o, o1, f1, i1, by simp [lookupKey, hkk, hvv], hty, he,
            by simp [lookupKey, hkk, hrv]⟩
      · simp only [lookupKey, if_neg hkk]
        exact rule10_nested_lookup rest r2.1 r2.2.1 r2.2.2 k hr

theorem rule10_entity_then_nested_tel (e e1 : JObj) (f : List String) (i : List Issue)
    (e2 : JObj) (f2 : List String) (i2 : List Issue)
    (h : rule10_entity e = some (e1, f, i)) (hn : rule10_nested e1 = some (e2, f2, i2)) :
    lookupKey e2 "telephone" = lookupKey e1 "telephone" := by
  rcases rule10_nested_lookup e1 e2 f2 i2 "telephone" hn with heq | ⟨o, o1, f1, i1, ho, hty, -, -⟩
  · exact heq
  · rw [rule10_entity_tel_not_obj e e1 f i h o ho] at hty
    cases hty

theorem rule10_graph_ptwise (x : Json) (r1 r2 : Json × List String × List Issue)
    (h1 : rule10_topStep x = some r1) (h2 : rule10_nestedItemStep r1.1 = some r2) :
    (∃ i, rule10_topStep r2.1 = some (r2.1, [], i)) ∧
    (∃ i, rule10_nestedItemStep r2.1 = some (r2.1, [], i)) := by
  cases x
  case obj o =>
    simp only [rule10_topStep] at h1
    cases he : rule10_entity o with
    | none =>
        rw [he] at h1
        simp at h1
    | some t =>
        rw [he] at h1
        simp only [Option.map_some', Option.some.injEq] at h1
        subst h1
        simp only [rule10_nestedItemStep] at h2
        cases hn : rule10_nested t.1 with
        | none =>
            rw [hn] at h2
            simp at h2
        | some n =>
            rw [hn] at h2
            simp only [Option.map_some', Option.some.injEq] at h2
            subst h2
            have htel : lookupKey n.1 "telephone" = lookupKey t.1 "telephone" :=
              rule10_entity_then_nested_tel o t.1 t.2.1 t.2.2 n.1 n.2.1 n.2.2 he hn
            obtain ⟨iE, hE⟩ := rule10_entity_stable o t.1 t.2.1 t.2.2 n.1 he htel
            obtain ⟨iN, hN⟩ := rule10_nested_idem t.1 n.1 n.2.1 n.2.2 hn
            constructor
            · exact ⟨iE, by simp [rule10_topStep, hE]⟩
            · exact ⟨iN, by simp [rule10_nestedItemStep, hN]⟩
  all_goals
    (simp only [rule10_topStep, Option.some.injEq] at h1;
     subst h1;
     simp only [rule10_nestedItemStep, Option.some.injEq] at h2;
     subst h2;
     exact ⟨⟨[], rfl⟩, ⟨[], rfl⟩⟩)

theorem rule10_graph_comp (items : List Json) (t n : List Json × List String × List Issue)
    (ht : rule10_graphTop items = some t) (hn : rule10_graphNested t.1 = some n) :
    (∃ i, rule10_graphTop n.1 = some (n.1, [], i)) ∧
    (∃ i, rule10_graphNested n.1 = some (n.1, [], i)) :=
  seqStep_comp rule10_topStep rule10_nestedItemStep rule10_graph_ptwise items t n ht hn

/-- A second run of Rule 10 over the whole document returned by a first run
modifies nothing and records no auto-fix. -/
theorem rule10_doc_idem (p p1 : JObj) (f : List String) (i : List Issue)
    (h : rule10_doc p = some (p1, f, i)) :
    ∃ i2, rule10_doc p1 = some (p1, [], i2) := by
  simp only [rule10_doc] at h
  split at h
  · rename_i items hg
    cases ht : rule10_graphTop items with
    | none =>
        simp only [ht] at h
        simp at h
    | some t =>
        simp only [ht] at h
        cases hn : rule10_graphNested t.1 with
        | none =>
            simp only [hn] at h
            simp at h
        | some n =>
            simp only [hn, Option.some.injEq, Prod.mk.injEq] at h
            obtain ⟨rfl, rfl, rfl⟩ := h
            have hself : lookupKey (setKey p "@graph" (Json.arr n.1)) "@graph"
                = some (Json.arr n.1) := lookupKey_setKey_self p "@graph" (Json.arr n.1)
            obtain ⟨⟨iT, hT⟩, ⟨iN, hN⟩⟩ := rule10_graph_comp items t n ht hn
            refine ⟨iT ++ iN, ?_⟩
            simp only [rule10_doc, hself, hT, hN, setKey_eq_self _ _ _ hself]
            simp
  · rename_i s hg
    simp only [Option.some.injEq, Prod.mk.injEq] at h
    obtain ⟨rfl, rfl, rfl⟩ := h
    exact ⟨[], by simp [rule10_doc, hg]⟩
  · rename_i o hg
    simp only [Option.some.injEq, Prod.mk.injEq] at h
    obtain ⟨rfl, rfl, rfl⟩ := h
    exact ⟨[], by simp [rule10_doc, hg]⟩
  · simp at h
  · rename_i hg
    cases he : rule10_entity p with
    | none =>
        simp only [he] at h
        simp at h
    | some t =>
        simp only [he] at h
        cases hn : rule10_nested t.1 with
        | none =>
            simp only [hn] at h
            simp at h
        | some n =>
            simp only [hn, Option.some.injEq, Prod.mk.injEq] at h
            obtain ⟨rfl, rfl, rfl⟩ := h
            have htel : lookupKey n.1 "telephone" = lookupKey t.1 "telephone" :=
              rule10_entity_then_nested_tel p t.1 t.2.1 t.2.2 n.1 n.2.1 n.2.2 he hn
            obtain ⟨iE, hE⟩ := rule10_entity_stable p t.1 t.2.1 t.2.2 n.1 he htel
            obtain ⟨iN2, hN2⟩ := rule10_nested_idem t.1 n.1 n.2.1 n.2.2 hn
            have hg1 : lookupKey t.1 "@graph" = lookupKey p "@graph" :=
              rule10_entity_lookup_other p t.1 t.2.1 t.2.2 he "@graph" (by decide)
            have hg2 : lookupKey n.1 "@graph" = none := by
              rcases rule10_nested_lookup t.1 n.1 n.2.1 n.2.2 "@graph" hn with
                heq | ⟨o, o1, f1, i1, ho, -, -, -⟩
              · rw [heq, hg1, hg]
              · rw [hg1, hg] at ho
                cases ho
            refine ⟨iE ++ iN2, ?_⟩
            simp only [rule10_doc, hg2, hE, hN2]
            simp

theorem validate_parsed_inv (hs : Bool) (j : Json) (ids : Option (List String))
    (R : List Issue × List String × Json)
    (h : validate_parsed hs j ids = some R) :
    ∃ pobj es r10 i3 i4 i5 i7 i11 i13,
      j = Json.obj pobj ∧
      extract_entities pobj = some es ∧
      rule10_doc (rule2 pobj).2.2 = some r10 ∧
      seqIssues rule3_entity es = some i3 ∧
      seqIssues rule4_entity es = some i4 ∧
      seqIssues rule5_entity es = some i5 ∧
      seqIssues rule7_entity es = some i7 ∧
      seqIssues rule11_entity es = some i11 ∧
      rule13 es ids = some i13 ∧
      R = ((rule2 pobj).1 ++ i3 ++ i4 ++ i5 ++ rule6_issues es ++ i7 ++ rule9 es
            ++ r10.2.2 ++ i11 ++ (rule12 hs).1 ++ i13 ++ rule16 pobj es,
          (rule2 pobj).2.1 ++ r10.2.1 ++ (rule12 hs).2, Json.obj r10.1) := by
  cases j
  case obj pobj =>
    simp only [validate_parsed] at h
    cases hes : extract_entities pobj with
    | none =>
        simp only [hes] at h
        simp at h
    | some es =>
        simp only [hes] at h
        split at h
        · rename_i r10 i3 i4 i5 i7 i11 i13 h10 h3 h4 h5 h7 h11 h13
          simp only [Option.some.injEq] at h
          exact ⟨pobj, es, r10, i3, i4, i5, i7, i11, i13, rfl, hes, h10, h3, h4, h5, h7,
            h11, h13, h.symm⟩
        · simp at h
  all_goals simp [validate_parsed] at h

theorem rule2_ctx_not_legacy (d : JObj) (l : String) (hl : l ∈ LEGACY_CONTEXTS) :
    lookupKey (rule2 d).2.2 "@context" ≠ some (Json.str l) := by
  intro h
  simp only [rule2] at h
  split_ifs at h with h1 h2 h3
  · have hd : lookupKey d "@context" = some (Json.str l) := h
    rw [getO, hd] at h1
    simp [Json.truthy] at h1
    subst h1
    exact absurd hl (by decide)
  · have hd : lookupKey d "@context" = some (Json.str l) := h
    rw [getO, hd] at h2
    simp at h2
    subst h2
    exact absurd hl (by decide)
  · have hd : lookupKey (setKey d "@context" (Json.str CANONICAL_CONTEXT)) "@context"
        = some (Json.str l) := h
    rw [lookupKey_setKey_self] at hd
    simp at hd
    subst hd
    exact absurd hl (by decide)
  · have hd : lookupKey d "@context" = some (Json.str l) := h
    apply h3
    rw [List.any_eq_true]
    refine ⟨l, hl, ?_⟩
    rw [getO, hd]
    simp

theorem rule10_doc_ctx (p : JObj) (R : JObj × List String × List Issue) (k : String)
    (hkt : k ≠ "telephone") (hkg : k ≠ "@graph")
    (h : rule10_doc p = some R) :
    lookupKey R.1 k = lookupKey p k ∨
    (∃ o o1, lookupKey p k = some (Json.obj o) ∧ lookupKey R.1 k = some (Json.obj o1)) := by
  simp only [rule10_doc] at h
  split at h
  · rename_i items hg
    cases ht : rule10_graphTop items with
    | none =>
        simp only [ht] at h
        simp at h
    | some t =>
        simp only [ht] at h
        cases hn : rule10_graphNested t.1 with
        | none =>
            simp only [hn] at h
            simp at h
        | some n =>
            simp only [hn, Option.some.injEq] at h
            subst h
            exact Or.inl (lookupKey_setKey_other p "@graph" k (Json.arr n.1) hkg)
  · rename_i s hg
    simp only [Option.some.injEq] at h
    subst h
    exact Or.inl rfl
  · rename_i o hg
    simp only [Option.some.injEq] at h
    subst h
    exact Or.inl rfl
  · simp at h
  · rename_i hg
    cases he : rule10_entity p with
    | none =>
        simp only [he] at h
        simp at h
    | some t =>
        simp only [he] at h
        cases hn : rule10_nested t.1 with
        | none =>
            simp only [hn] at h
            simp at h
        | some n =>
            simp only [hn, Option.some.injEq] at h
            subst h
            have h1 : lookupKey t.1 k = lookupKey p k :=
              rule10_entity_lookup_other p t.1 t.2.1 t.2.2 he k hkt
            rcases rule10_nested_lookup t.1 n.1 n.2.1 n.2.2 k hn with
              heq | ⟨o, o1, f1, i1, ho, -, -, ho1⟩
            · exact Or.inl (heq.trans h1)
            · exact Or.inr ⟨o, o1, h1 ▸ ho, ho1⟩

theorem validate_ctx_not_legacy (d : JObj) (r10 : JObj × List String × List Issue)
    (h10 : rule10_doc (rule2 d).2.2 = some r10) :
    ∀ l ∈ LEGACY_CONTEXTS, lookupKey r10.1 "@context" ≠ some (Json.str l) := by
  intro l hl hcon
  rcases rule10_doc_ctx (rule2 d).2.2 r10 "@context" (by decide) (by decide) h10 with
    heq | ⟨o, o1, ho, ho1⟩
  · rw [heq] at hcon
    exact rule2_ctx_not_legacy d l hl hcon
  · rw [ho1] at hcon
    simp at hcon

theorem rule2_noop (d1 : JObj)
    (hleg : ∀ l ∈ LEGACY_CONTEXTS, lookupKey d1 "@context" ≠ some (Json.str l)) :
    (rule2 d1).2.1 = [] ∧ (rule2 d1).2.2 = d1 := by
  simp only [rule2]
  split_ifs with h1 h2 h3
  · exact ⟨rfl, rfl⟩
  · exact ⟨rfl, rfl⟩
  · exfalso
    rw [List.any_eq_true] at h3
    obtain ⟨l, hl, heq⟩ := h3
    have hx : getO d1 "@context" (Json.str "") = Json.str l := of_decide_eq_true heq
    cases hlk : lookupKey d1 "@context" with
    | none =>
        rw [getO, hlk] at hx
        simp at hx
        subst hx
        exact absurd hl (by decide)
    | some v =>
        rw [getO, hlk] at hx
        simp at hx
        subst hx
        exact hleg l hl hlk
  · exact ⟨rfl, rfl⟩

/-- Claim C8 as amended: re-running the validator on the serialization of
the parsed document returned by a first run reproduces that document
unchanged, and the only auto-fix the second run can record is the Rule 12
script notice (which never modifies the document); in particular no
`@context` or telephone auto-fix applied by the first run is recorded
again. -/
theorem claim8_rerun_stability (raw : RawText) (ids ids2 : Option (List String))
    (r1 : VResult) (p1 : Json) (r2 : VResult)
    (h1 : validate_jsonld raw ids = some r1)
    (hp : r1.parsed = some p1)
    (h2 : validate_jsonld (rawOf p1) ids2 = some r2) :
    r2.parsed = some p1 ∧ ∀ m ∈ r2.auto_fixes, m = scriptFixMsg := by
  simp only [validate_jsonld] at h1
  cases hraw : raw.parse with
  | none =>
      simp only [hraw, Option.some.injEq] at h1
      subst h1
      simp [_result] at hp
  | some j =>
      simp only [hraw] at h1
      cases hvp : validate_parsed raw.hasScriptTag j ids with
      | none =>
          simp only [hvp] at h1
          simp at h1
      | some R1 =>
          simp only [hvp] at h1
          simp only [Option.map_some', Option.some.injEq] at h1
          subst h1
          simp only [_result] at hp
          simp only [Option.some.injEq] at hp
          subst hp
          obtain ⟨pobj, es, r10, i3, i4, i5, i7, i11, i13, hj, hes, h10, -, -, -, -, -, -,
            hR⟩ := validate_parsed_inv raw.hasScriptTag j ids R1 hvp
          have hp12 : R1.2.2 = Json.obj r10.1 := by rw [hR]
          rw [hp12] at h2 ⊢
          simp only [validate_jsonld, rawOf] at h2
          cases hvp2 : validate_parsed (rawOf (Json.obj r10.1)).hasScriptTag
              (Json.obj r10.1) ids2 with
          | none =>
              rw [show (rawOf (Json.obj r10.1)).hasScriptTag
                  = strContains (strLower (dumps (Json.obj r10.1))) "<script" from rfl] at hvp2
              rw [hvp2] at h2
              simp at h2
          | some R2 =>
              rw [show (rawOf (Json.obj r10.1)).hasScriptTag
                  = strContains (strLower (dumps (Json.obj r10.1))) "<script" from rfl] at hvp2
              rw [hvp2] at h2
              simp only [Option.map_some', Option.some.injEq] at h2
              subst h2
              obtain ⟨pobj2, es2, r10b, j3, j4, j5, j7, j11, j13, hj2, hes2, h10b, -, -, -,
                -, -, -, hR2⟩ := validate_parsed_inv _ (Json.obj r10.1) ids2 R2 hvp2
              have hpe : pobj2 = r10.1 := by
                injection hj2 with hj2e
                exact hj2e.symm
              subst hpe
              have hnl : ∀ l ∈ LEGACY_CONTEXTS,
                  lookupKey r10.1 "@context" ≠ some (Json.str l) :=
                validate_ctx_not_legacy pobj r10 h10
              obtain ⟨hfix2, hdoc2⟩ := rule2_noop r10.1 hnl
              rw [hdoc2] at h10b
              obtain ⟨i2x, hidem⟩ := rule10_doc_idem (rule2 pobj).2.2 r10.1 r10.2.1 r10.2.2 h10
              rw [hidem] at h10b
              simp only [Option.some.injEq] at h10b
              constructor
              · rw [hR2, _result]
                simp only [Option.some.injEq, Json.obj.injEq]
                rw [← h10b]
              · intro m hm
                rw [hR2] at hm
                simp only [_result] at hm
                rw [hfix2, ← h10b] at hm
                simp only [List.nil_append] at hm
                cases hsc : strContains (strLower (dumps (Json.obj r10.1))) "<script" with
                | false =>
                    rw [hsc] at hm
                    simp [rule12] at hm
                | true =>
                    rw [hsc] at hm
                    simp [rule12] at hm
                    exact hm

/-- A document whose `name` string contains a script tag: Rule 12 records
the "Stripped <script> tags" auto-fix without modifying the document, so the
serialization of the output still contains `<script`. -/
def claim8doc : JObj :=
  [("@context", Json.str "https://schema.org"), ("@type", Json.str "Thing"),
   ("name", Json.str "<script>alert(1)</script>")]

/-- The result of validating `claim8doc` (total by construction: the
document has no telephone, so no rule raises). -/
def claim8res : VResult :=
  (validate_jsonld (rawOf (Json.obj claim8doc)) none).getD (_result [] [] none)

/-- Claim C8 counterexample: the first run on this document records the
Rule 12 script auto-fix and returns the document unchanged, so the second
run — on the serialization of the returned document — records the very same
auto-fix again, contradicting the claim that a repeated run never reports an
auto-fix the first run already applied. -/
theorem claim8_counterexample :
    validate_jsonld (rawOf (Json.obj claim8doc)) none = some claim8res ∧
    scriptFixMsg ∈ claim8res.auto_fixes ∧
    claim8res.parsed = some (Json.obj claim8doc) ∧
    ∃ r2, validate_jsonld (rawOf (Json.obj claim8doc)) none = some r2 ∧
      scriptFixMsg ∈ r2.auto_fixes :=
  ⟨by decide, by decide, by decide, claim8res, by decide, by decide⟩

/-- Witness for the amended C8 at a concrete input: the script-tag document
round-trips — the second run (which here is the same call, since the parsed
output equals the input) returns the same document, and every auto-fix it
records is the Rule 12 script notice. -/
theorem claim8_rerun_stability_witness :
    claim8res.parsed = some (Json.obj claim8doc) ∧
    ∀ m ∈ claim8res.auto_fixes, m = scriptFixMsg :=
  claim8_rerun_stability (rawOf (Json.obj claim8doc)) none none claim8res
    (Json.obj claim8doc) claim8res (by decide) (by decide) (by decide)

theorem phoneFixMsg_ne_ctx (t : String) : phoneFixMsg t ≠ ctxFixMsg := by
  intro h
  have h1 : strStartsWith (phoneFixMsg t) "Auto-fixed phone to E.164: " = true :=
    strStartsWith_append "Auto-fixed phone to E.164: " t
  rw [h] at h1
  exact absurd h1 (by decide)

theorem seqIssues_prop (f : JObj → Option (List Issue)) (p : Issue → Prop)
    (hf : ∀ e l, f e = some l → ∀ i ∈ l, p i) :
    ∀ (es : List JObj) (L : List Issue), seqIssues f es = some L → ∀ i ∈ L, p i
  | [], L, h => by
      simp only [seqIssues, Option.some.injEq] at h
      subst h
      intro i hi
      simp at hi
  | e :: rest, L, h => by
      simp only [seqIssues] at h
      cases hfe : f e with
      | none => simp [hfe] at h
      | some a =>
          cases hre : seqIssues f rest with
          | none => simp [hfe, hre] at h
          | some b =>
              simp only [hfe, hre] at h
              simp at h
              subst h
              intro i hi
              rcases List.mem_append.mp hi with h1 | h2
              · exact hf e a hfe i h1
              · exact seqIssues_prop f p hf rest b hre i h2

theorem rule3_entity_rule (e : JObj) (l : List Issue) (h : rule3_entity e = some l) :
    ∀ i ∈ l, i.rule = 3 := by
  simp only [rule3_entity] at h
  repeat' split at h
  all_goals first
    | (simp only [Option.some.injEq] at h; subst h; intro i hi; fin_cases hi <;> rfl)
    | simp at h

theorem rule4_entity_rule (e : JObj) (l : List Issue) (h : rule4_entity e = some l) :
    ∀ i ∈ l, i.rule = 4 := by
  simp only [rule4_entity] at h
  repeat' split at h
  all_goals first
    | (simp only [Option.some.injEq] at h; subst h; intro i hi; fin_cases hi <;> rfl)
    | simp at h

theorem rule5_entity_rule (e : JObj) (l : List Issue) (h : rule5_entity e = some l) :
    ∀ i ∈ l, i.rule = 5 := by
  simp only [rule5_entity] at h
  repeat' split at h
  all_goals first
    | (simp only [Option.some.injEq] at h; subst h; intro i hi; fin_cases hi <;> rfl)
    | simp at h

theorem rule6_entity_rule (e : JObj) : ∀ i ∈ rule6_entity e, i.rule = 6 := by
  intro i hi
  simp only [rule6_entity, List.mem_filterMap] at hi
  obtain ⟨kv, -, hkv⟩ := hi
  cases hl : DEPRECATED_PROPERTIES.lookup kv.1 with
  | none =>
      rw [hl] at hkv
      simp at hkv
  | some repl =>
      rw [hl] at hkv
      simp only [Option.map_some', Option.some.injEq] at hkv
      subst hkv
      rfl

theorem rule6_issues_rule : ∀ (es : List JObj), ∀ i ∈ rule6_issues es, i.rule = 6
  | [], i, hi => by simp [rule6_issues] at hi
  | e :: rest, i, hi => by
      simp only [rule6_issues, List.foldr] at hi
      rcases List.mem_append.mp hi with h1 | h2
      · exact rule6_entity_rule e i h1
      · exact rule6_issues_rule rest i h2

theorem rule7_entity_rule (e : JObj) (l : List Issue) (h : rule7_entity e = some l) :
    ∀ i ∈ l, i.rule = 7 := by
  simp only [rule7_entity] at h
  split at h
  · split at h
    · simp only [Option.some.injEq] at h
      subst h
      intro i hi
      simp only [List.mem_filterMap] at hi
      obtain ⟨kv, -, hkv⟩ := hi
      split at hkv
      · simp only [Option.some.injEq] at hkv
        subst hkv
        rfl
      · simp at hkv
    · simp only [Option.some.injEq] at h
      subst h
      intro i hi
      simp at hi
  · simp at h
  · simp at h
  · simp only [Option.some.injEq] at h
    subst h
    intro i hi
    simp at hi

theorem rule9_rule (es : List JObj) : ∀ i ∈ rule9 es, i.rule = 9 := by
  intro i hi
  simp only [rule9] at hi
  split at hi
  · fin_cases hi <;> rfl
  · simp at hi

theorem rule12_rule (hs : Bool) : ∀ i ∈ (rule12 hs).1, i.rule = 12 := by
  cases hs
  · intro i hi
    simp [rule12] at hi
  · intro i hi
    simp [rule12] at hi
    subst hi
    rfl

theorem rule11_props_rule (e : JObj) : ∀ (ps : List String) (l : List Issue),
    rule11_props e ps = some l → ∀ i ∈ l, i.rule = 11
  | [], l, h => by
      simp only [rule11_props, Option.some.injEq] at h
      subst h
      intro i hi
      simp at hi
  | p :: rest, l, h => by
      simp only [rule11_props] at h
      cases hrest : rule11_props e rest with
      | none =>
          simp only [hrest] at h
          simp at h
      | some t =>
          have ih := rule11_props_rule e rest t hrest
          simp only [hrest] at h
          cases hv : getO e p (.str "") with
          | str s =>
              simp only [hv] at h
              by_cases hs : s = ""
              · simp only [if_pos hs] at h
                simp at h
                subst h
                exact ih
              · by_cases hd : is_valid_date s = true
                · simp only [if_neg hs, if_pos hd] at h
                  simp at h
                  subst h
                  exact ih
                · simp only [if_neg hs, if_neg hd] at h
                  simp at h
                  subst h
                  intro i hi
                  rcases List.mem_cons.mp hi with rfl | hi2
                  · rfl
                  · exact ih i hi2
          | null =>
              simp only [hv] at h
              simp [Json.truthy] at h
              subst h
              exact ih
          | bool b =>
              simp only [hv] at h
              cases b
              · simp [Json.truthy] at h
                subst h
                exact ih
              · simp [Json.truthy] at h
          | num n =>
              simp only [hv] at h
              by_cases hn : n = 0
              · simp [Json.truthy, hn] at h
                subst h
                exact ih
              · simp [Json.truthy, hn] at h
          | arr xs =>
              simp only [hv] at h
              cases xs
              · simp [Json.truthy] at h
                subst h
                exact ih
              · simp [Json.truthy] at h
          | obj o =>
              simp only [hv] at h
              cases o
              · simp [Json.truthy] at h
                subst h
                exact ih
              · simp [Json.truthy] at h

theorem rule11_entity_rule (e : JObj) (l : List Issue) (h : rule11_entity e = some l) :
    ∀ i ∈ l, i.rule = 11 :=
  rule11_props_rule e DATE_PROPS l h

theorem rule10_entity_rule (e e1 : JObj) (f : List String) (il : List Issue)
    (h : rule10_entity e = some (e1, f, il)) : ∀ i ∈ il, i.rule = 10 := by
  rcases rule10_entity_inv e e1 f il h with
    ⟨-, -, -, rfl⟩ |
    ⟨s, -, -, ⟨-, -, -, rfl⟩ | ⟨-, -, -, -, rfl⟩ | ⟨-, -, -, -, -, -, rfl⟩ | ⟨-, -, -, -, -, rfl⟩⟩
  · intro i hi; simp at hi
  · intro i hi; simp at hi
  · intro i hi; simp at hi
  · intro i hi; simp at hi
  · intro i hi
    fin_cases hi <;> rfl

theorem rule10_entity_fixes (e e1 : JObj) (f : List String) (il : List Issue)
    (h : rule10_entity e = some (e1, f, il)) : ∀ m ∈ f, ∃ t, m = phoneFixMsg t := by
  rcases rule10_entity_inv e e1 f il h with
    ⟨-, -, rfl, -⟩ |
    ⟨s, -, -, ⟨-, -, rfl, -⟩ | ⟨-, -, -, rfl, -⟩ | ⟨-, -, -, -, -, rfl, -⟩ | ⟨-, -, -, -, rfl, -⟩⟩
  · intro m hm; simp at hm
  · intro m hm; simp at hm
  · intro m hm
    fin_cases hm
    exact ⟨"+1" ++ stripNonDigits s, rfl⟩
  · intro m hm
    fin_cases hm
    exact ⟨"+" ++ stripNonDigits s, rfl⟩
  · intro m hm; simp at hm

theorem rule10_nestedStep_rule (kv : String × Json) (r : (String × Json) × List String × List Issue)
    (h : rule10_nestedStep kv = some r) : ∀ i ∈ r.2.2, i.rule = 10 := by
  obtain ⟨-, hd⟩ := rule10_nestedStep_inv kv r h
  rcases hd with ⟨-, -, hi0⟩ | ⟨o, o1, f1, i1, -, -, he, -, -, hi1⟩
  · rw [hi0]
    intro i hi
    simp at hi
  · rw [hi1]
    exact rule10_entity_rule o o1 f1 i1 he

theorem rule10_nestedStep_fixes (kv : String × Json)
    (r : (String × Json) × List String × List Issue)
    (h : rule10_nestedStep kv = some r) : ∀ m ∈ r.2.1, ∃ t, m = phoneFixMsg t := by
  obtain ⟨-, hd⟩ := rule10_nestedStep_inv kv r h
  rcases hd with ⟨-, hf0, -⟩ | ⟨o, o1, f1, i1, -, -, he, -, hf1, -⟩
  · rw [hf0]
    intro m hm
    simp at hm
  · rw [hf1]
    exact rule10_entity_fixes o o1 f1 i1 he

theorem rule10_topStep_rule (x : Json) (r : Json × List String × List Issue)
    (h : rule10_topStep x = some r) : ∀ i ∈ r.2.2, i.rule = 10 := by
  cases x
  case obj o =>
    simp only [rule10_topStep] at h
    cases he : rule10_entity o with
    | none =>
        rw [he] at h
        simp at h
    | some t =>
        rw [he] at h
        simp only [Option.map_some', Option.some.injEq] at h
        subst h
        exact rule10_entity_rule o t.1 t.2.1 t.2.2 he
  all_goals
    (simp only [rule10_topStep, Option.some.injEq] at h;
     subst h;
     intro i hi;
     simp at hi)

theorem rule10_topStep_fixes (x : Json) (r : Json × List String × List Issue)
    (h : rule10_topStep x = some r) : ∀ m ∈ r.2.1, ∃ t, m = phoneFixMsg t := by
  cases x
  case obj o =>
    simp only [rule10_topStep] at h
    cases he : rule10_entity o with
    | none =>
        rw [he] at h
        simp at h
    | some t =>
        rw [he] at h
        simp only [Option.map_some', Option.some.injEq] at h
        subst h
        exact rule10_entity_fixes o t.1 t.2.1 t.2.2 he
  all_goals
    (simp only [rule10_topStep, Option.some.injEq] at h;
     subst h;
     intro m hm;
     simp at hm)

theorem rule10_nestedItemStep_rule (x : Json) (r : Json × List String × List Issue)
    (h : rule10_nestedItemStep x = some r) : ∀ i ∈ r.2.2, i.rule = 10 := by
  cases x
  case obj o =>
    simp only [rule10_nestedItemStep] at h
    cases hn : rule10_nested o with
    | none =>
        rw [hn] at h
        simp at h
    | some n =>
        rw [hn] at h
        simp only [Option.map_some', Option.some.injEq] at h
        subst h
        exact seqStep_issues_prop rule10_nestedStep _ rule10_nestedStep_rule o n hn
  all_goals
    (simp only [rule10_nestedItemStep, Option.some.injEq] at h;
     subst h;
     intro i hi;
     simp at hi)

theorem rule10_nestedItemStep_fixes (x : Json) (r : Json × List String × List Issue)
    (h : rule10_nestedItemStep x = some r) : ∀ m ∈ r.2.1, ∃ t, m = phoneFixMsg t := by
  cases x
  case obj o =>
    simp only [rule10_nestedItemStep] at h
    cases hn : rule10_nested o with
    | none =>
        rw [hn] at h
        simp at h
    | some n =>
        rw [hn] at h
        simp only [Option.map_some', Option.some.injEq] at h
        subst h
        exact seqStep_fixes_prop rule10_nestedStep _ rule10_nestedStep_fixes o n hn
  all_goals
    (simp only [rule10_nestedItemStep, Option.some.injEq] at h;
     subst h;
     intro m hm;
     simp at hm)

theorem rule10_doc_rule (p : JObj) (R : JObj × List String × List Issue)
    (h : rule10_doc p = some R) : ∀ i ∈ R.2.2, i.rule = 10 := by
  simp only [rule10_doc] at h
  split at h
  · rename_i items hg
    cases ht : rule10_graphTop items with
    | none =>
        simp only [ht] at h
        simp at h
    | some t =>
        simp only [ht] at h
        cases hn : rule10_graphNested t.1 with
        | none =>
            simp only [hn] at h
            simp at h
        | some n =>
            simp only [hn, Option.some.injEq] at h
            subst h
            intro i hi
            rcases List.mem_append.mp hi with h1 | h2
            · exact seqStep_issues_prop rule10_topStep _ rule10_topStep_rule items t ht i h1
            · exact seqStep_issues_prop rule10_nestedItemStep _ rule10_nestedItemStep_rule
                t.1 n hn i h2
  · rename_i s hg
    simp only [Option.some.injEq] at h
    subst h
    intro i hi
    simp at hi
  · rename_i o hg
    simp only [Option.some.injEq] at h
    subst h
    intro i hi
    simp at hi
  · simp at h
  · rename_i hg
    cases he : rule10_entity p with
    | none =>
        simp only [he] at h
        simp at h
    | some t =>
        simp only [he] at h
        cases hn : rule10_nested t.1 with
        | none =>
            simp only [hn] at h
            simp at h
        | some n =>
            simp only [hn, Option.some.injEq] at h
            subst h
            intro i hi
            rcases List.mem_append.mp hi with h1 | h2
            · exact rule10_entity_rule p t.1 t.2.1 t.2.2 he i h1
            · exact seqStep_issues_prop rule10_nestedStep _ rule10_nestedStep_rule t.1 n hn i h2

theorem rule10_doc_fixes (p : JObj) (R : JObj × List String × List Issue)
    (h : rule10_doc p = some R) : ∀ m ∈ R.2.1, ∃ t, m = phoneFixMsg t := by
  simp only [rule10_doc] at h
  split at h
  · rename_i items hg
    cases ht : rule10_graphTop items with
    | none =>
        simp only [ht] at h
        simp at h
    | some t =>
        simp only [ht] at h
        cases hn : rule10_graphNested t.1 with
        | none =>
            simp only [hn] at h
            simp at h
        | some n =>
            simp only [hn, Option.some.injEq] at h
            subst h
            intro m hm
            rcases List.mem_append.mp hm with h1 | h2
            · exact seqStep_fixes_prop rule10_topStep _ rule10_topStep_fixes items t ht m h1
            · exact seqStep_fixes_prop rule10_nestedItemStep _ rule10_nestedItemStep_fixes
                t.1 n hn m h2
  · rename_i s hg
    simp only [Option.some.injEq] at h
    subst h
    intro m hm
    simp at hm
  · rename_i o hg
    simp only [Option.some.injEq] at h
    subst h
    intro m hm
    simp at hm
  · simp at h
  · rename_i hg
    cases he : rule10_entity p with
    | none =>
        simp only [he] at h
        simp at h
    | some t =>
        simp only [he] at h
        cases hn : rule10_nested t.1 with
        | none =>
            simp only [hn] at h
            simp at h
        | some n =>
            simp only [hn, Option.some.injEq] at h
            subst h
            intro m hm
            rcases List.mem_append.mp hm with h1 | h2
            · exact rule10_entity_fixes p t.1 t.2.1 t.2.2 he m h1
            · exact seqStep_fixes_prop rule10_nestedStep _ rule10_nestedStep_fixes t.1 n hn m h2

theorem bareRefIssue_rule (known : List String) (o : JObj) (l : List Issue)
    (h : bareRefIssue known o = some l) : ∀ i ∈ l, i.rule = 13 := by
  simp only [bareRefIssue] at h
  repeat' split at h
  all_goals first
    | (simp only [Option.some.injEq] at h; subst h; intro i hi; fin_cases hi <;> rfl)
    | simp at h

mutual

theorem check_id_refs_rule (known : List String) : ∀ (o : JObj) (l : List Issue),
    check_id_refs known o = some l → ∀ i ∈ l, i.rule = 13
  | [], l, h => by
      simp only [check_id_refs, Option.some.injEq] at h
      subst h
      intro i hi
      simp at hi
  | (k, v) :: rest, l, h => by
      simp only [check_id_refs] at h
      by_cases hk : k = "@id"
      · simp only [if_pos hk] at h
        cases ht : check_id_refs known rest with
        | none =>
            simp only [ht] at h
            simp at h
        | some b =>
            simp only [ht] at h
            simp at h
            subst h
            exact check_id_refs_rule known rest b ht
      · simp only [if_neg hk] at h
        cases hv : checkRefVal known v with
        | none =>
            simp only [hv] at h
            simp at h
        | some a =>
            cases ht : check_id_refs known rest with
            | none =>
                simp only [hv, ht] at h
                simp at h
            | some b =>
                simp only [hv, ht] at h
                simp at h
                subst h
                intro i hi
                rcases List.mem_append.mp hi with h1 | h2
                · exact checkRefVal_rule known v a hv i h1
                · exact check_id_refs_rule known rest b ht i h2

theorem checkRefVal_rule (known : List String) : ∀ (v : Json) (l : List Issue),
    checkRefVal known v = some l → ∀ i ∈ l, i.rule = 13
  | .obj o, l, h => by
      simp only [checkRefVal] at h
      cases hs : bareRefIssue known o with
      | none =>
          simp only [hs] at h
          simp at h
      | some s =>
          cases hinner : check_id_refs known o with
          | none =>
              simp only [hs, hinner] at h
              simp at h
          | some inner =>
              simp only [hs, hinner] at h
              simp at h
              subst h
              intro i hi
              rcases List.mem_append.mp hi with h1 | h2
              · exact bareRefIssue_rule known o s hs i h1
              · exact check_id_refs_rule known o inner hinner i h2
  | .arr xs, l, h => checkRefList_rule known xs l h
  | .null, l, h => by
      simp only [checkRefVal, Option.some.injEq] at h
      subst h
      intro i hi
      simp at hi
  | .bool b, l, h => by
      simp only [checkRefVal, Option.some.injEq] at h
      subst h
      intro i hi
      simp at hi
  | .num n, l, h => by
      simp only [checkRefVal, Option.some.injEq] at h
      subst h
      intro i hi
      simp at hi
  | .str s, l, h => by
      simp only [checkRefVal, Option.some.injEq] at h
      subst h
      intro i hi
      simp at hi

theorem checkRefList_rule (known : List String) : ∀ (xs : List Json) (l : List Issue),
    checkRefList known xs = some l → ∀ i ∈ l, i.rule = 13
  | [], l, h => by
      simp only [checkRefList, Option.some.injEq] at h
      subst h
      intro i hi
      simp at hi
  | Json.obj o :: rest, l, h => by
      simp only [checkRefList] at h
      cases ha : check_id_refs known o with
      | none =>
          simp only [ha] at h
          simp at h
      | some a =>
          cases ht : checkRefList known rest with
          | none =>
              simp only [ha, ht] at h
              simp at h
          | some b =>
              simp only [ha, ht] at h
              simp at h
              subst h
              intro i hi
              rcases List.mem_append.mp hi with h1 | h2
              · exact check_id_refs_rule known o a ha i h1
              · exact checkRefList_rule known rest b ht i h2
  | Json.null :: rest, l, h => by
      simp only [checkRefList] at h
      cases ht : checkRefList known rest with
      | none =>
          simp only [ht] at h
          simp at h
      | some b =>
          simp only [ht] at h
          simp at h
          subst h
          exact checkRefList_rule known rest b ht
  | Json.bool bv :: rest, l, h => by
      simp only [checkRefList] at h
      cases ht : checkRefList known rest with
      | none =>
          simp only [ht] at h
          simp at h
      | some b =>
          simp only [ht] at h
          simp at h
          subst h
          exact checkRefList_rule known rest b ht
  | Json.num nv :: rest, l, h => by
      simp only [checkRefList] at h
      cases ht : checkRefList known rest with
      | none =>
          simp only [ht] at h
          simp at h
      | some b =>
          simp only [ht] at h
          simp at h
          subst h
          exact checkRefList_rule known rest b ht
  | Json.str sv :: rest, l, h => by
      simp only [checkRefList] at h
      cases ht : checkRefList known rest with
      | none =>
          simp only [ht] at h
          simp at h
      | some b =>
          simp only [ht] at h
          simp at h
          subst h
          exact checkRefList_rule known rest b ht
  | Json.arr av :: rest, l, h => by
      simp only [checkRefList] at h
      cases ht : checkRefList known rest with
      | none =>
          simp only [ht] at h
          simp at h
      | some b =>
          simp only [ht] at h
          simp at h
          subst h
          exact checkRefList_rule known rest b ht

end

theorem seqRefs_rule (known : List String) : ∀ (es : List JObj) (l : List Issue),
    seqRefs known es = some l → ∀ i ∈ l, i.rule = 13
  | [], l, h => by
      simp only [seqRefs, Option.some.injEq] at h
      subst h
      intro i hi
      simp at hi
  | e :: rest, l, h => by
      simp only [seqRefs] at h
      cases ha : check_id_refs known e with
      | none =>
          simp only [ha] at h
          simp at h
      | some a =>
          cases ht : seqRefs known rest with
          | none =>
              simp only [ha, ht] at h
              simp at h
          | some b =>
              simp only [ha, ht] at h
              simp at h
              subst h
              intro i hi
              rcases List.mem_append.mp hi with h1 | h2
              · exact check_id_refs_rule known e a ha i h1
              · exact seqRefs_rule known rest b ht i h2

theorem rule13_rule (es : List JObj) (ids : Option (List String)) (l : List Issue)
    (h : rule13 es ids = some l) : ∀ i ∈ l, i.rule = 13 := by
  cases ids with
  | none =>
      simp only [rule13, Option.some.injEq] at h
      subst h
      intro i hi
      simp at hi
  | some gids =>
      simp only [rule13] at h
      cases hl : localIdsOf es with
      | none =>
          simp only [hl] at h
          simp at h
      | some lids =>
          simp only [hl] at h
          simp at h
          exact seqRefs_rule (lids ++ gids) es l h

theorem rule16_checks_rule (c n : JObj) : ∀ i ∈ rule16_checks c n, i.rule = 16 := by
  intro i hi
  simp only [rule16_checks, List.mem_append] at hi
  rcases hi with ((((h1 | h2) | h3) | h4) | h5) | h6
  · split at h1
    · fin_cases h1 <;> rfl
    · simp at h1
  · split at h2
    · fin_cases h2 <;> rfl
    · simp at h2
  · repeat' split at h3
    all_goals first
      | (fin_cases h3 <;> rfl)
      | simp at h3
  · repeat' split at h4
    all_goals first
      | (fin_cases h4 <;> rfl)
      | simp at h4
  · simp only [List.mem_filterMap] at h5
    obtain ⟨q, -, hq⟩ := h5
    split at hq
    · simp only [Option.some.injEq] at hq
      subst hq
      rfl
    · simp at hq
  · simp only [List.mem_filterMap] at h6
    obtain ⟨q, -, hq⟩ := h6
    split at hq
    · simp only [Option.some.injEq] at hq
      subst hq
      rfl
    · simp at hq

theorem rule16_rule (parsed : JObj) (es : List JObj) : ∀ i ∈ rule16 parsed es, i.rule = 16 := by
  intro i hi
  simp only [rule16] at hi
  repeat' split at hi
  all_goals first
    | exact rule16_checks_rule _ _ i hi
    | simp at hi

/-- Claim C7: for every parseable document whose top-level `@context` is a
legacy HTTP/WWW variant of the schema.org URI, the document returned by
`validate_jsonld` has `@context` equal to `https://schema.org`, exactly one
auto-fix is recorded for this normalization, and no issue of severity FAIL
is recorded for rule 2. -/
theorem claim7_context_normalization (raw : RawText) (ids : Option (List String))
    (doc : JObj) (v : String) (r : VResult)
    (hparse : raw.parse = some (Json.obj doc))
    (hctx : lookupKey doc "@context" = some (Json.str v))
    (hleg : v ∈ LEGACY_CONTEXTS)
    (hr : validate_jsonld raw ids = some r) :
    (∃ d1, r.parsed = some (Json.obj d1) ∧
        lookupKey d1 "@context" = some (Json.str CANONICAL_CONTEXT)) ∧
    r.auto_fixes.count ctxFixMsg = 1 ∧
    (∀ i ∈ r.issues, i.rule = 2 → i.sev ≠ "FAIL") := by
  simp only [validate_jsonld, hparse] at hr
  cases hvp : validate_parsed raw.hasScriptTag (Json.obj doc) ids with
  | none =>
      simp only [hvp] at hr
      simp at hr
  | some R =>
      simp only [hvp, Option.map_some', Option.some.injEq] at hr
      subst hr
      obtain ⟨pobj, es, r10, i3, i4, i5, i7, i11, i13, hj, hes, h10, h3, h4, h5, h7, h11,
        h13, hR⟩ := validate_parsed_inv raw.hasScriptTag (Json.obj doc) ids R hvp
      have hpe : doc = pobj := by simpa using hj
      subst hpe
      have h2 : rule2 doc = ([], [ctxFixMsg], setKey doc "@context"
          (Json.str CANONICAL_CONTEXT)) := by
        simp only [LEGACY_CONTEXTS] at hleg
        fin_cases hleg <;>
          simp [rule2, getO, hctx, Json.truthy, ctxFixMsg, CANONICAL_CONTEXT, LEGACY_CONTEXTS]
      have h21 : (rule2 doc).1 = [] := by rw [h2]
      have h2fix : (rule2 doc).2.1 = [ctxFixMsg] := by rw [h2]
      have h2doc : (rule2 doc).2.2 = setKey doc "@context" (Json.str CANONICAL_CONTEXT) := by
        rw [h2]
      have hpar : R.2.2 = Json.obj r10.1 := by rw [hR]
      have hfix : R.2.1 = [ctxFixMsg] ++ r10.2.1 ++ (rule12 raw.hasScriptTag).2 := by
        rw [hR, h2fix]
      have hiss : R.1 = i3 ++ i4 ++ i5 ++ rule6_issues es ++ i7 ++ rule9 es ++ r10.2.2
          ++ i11 ++ (rule12 raw.hasScriptTag).1 ++ i13 ++ rule16 doc es := by
        rw [hR, h21]
        simp
      have h10s : rule10_doc (setKey doc "@context" (Json.str CANONICAL_CONTEXT))
          = some r10 := by
        rw [← h2doc]
        exact h10
      have hctx2 : lookupKey (setKey doc "@context" (Json.str CANONICAL_CONTEXT)) "@context"
          = some (Json.str CANONICAL_CONTEXT) := lookupKey_setKey_self _ _ _
      refine ⟨⟨r10.1, ?_, ?_⟩, ?_, ?_⟩
      · simp only [_result]
        rw [hpar]
      · rcases rule10_doc_ctx _ r10 "@context" (by decide) (by decide) h10s with
          heq | ⟨o, o1, ho, ho1⟩
        · rw [heq, hctx2]
        · rw [hctx2] at ho
          simp at ho
      · simp only [_result]
        rw [hfix]
        have hA : r10.2.1.count ctxFixMsg = 0 := by
          rw [List.count_eq_zero]
          intro hmem
          obtain ⟨t, ht⟩ := rule10_doc_fixes _ r10 h10 ctxFixMsg hmem
          exact phoneFixMsg_ne_ctx t ht.symm
        have hB : ((rule12 raw.hasScriptTag).2).count ctxFixMsg = 0 := by
          cases raw.hasScriptTag <;> decide
        simp [List.count_append, hA, hB]
      · intro i hi h2rule
        simp only [_result] at hi
        rw [hiss] at hi
        simp only [List.append_assoc, List.mem_append] at hi
        rcases hi with h | h | h | h | h | h | h | h | h | h | h
        · have hk := seqIssues_prop rule3_entity _ rule3_entity_rule es i3 h3 i h
          rw [h2rule] at hk
          exact absurd hk (by decide)
        · have hk := seqIssues_prop rule4_entity _ rule4_entity_rule es i4 h4 i h
          rw [h2rule] at hk
          exact absurd hk (by decide)
        · have hk := seqIssues_prop rule5_entity _ rule5_entity_rule es i5 h5 i h
          rw [h2rule] at hk
          exact absurd hk (by decide)
        · have hk := rule6_issues_rule es i h
          rw [h2rule] at hk
          exact absurd hk (by decide)
        · have hk := seqIssues_prop rule7_entity _ rule7_entity_rule es i7 h7 i h
          rw [h2rule] at hk
          exact absurd hk (by decide)
        · have hk := rule9_rule es i h
          rw [h2rule] at hk
          exact absurd hk (by decide)
        · have hk := rule10_doc_rule _ r10 h10 i h
          rw [h2rule] at hk
          exact absurd hk (by decide)
        · have hk := seqIssues_prop rule11_entity _ rule11_entity_rule es i11 h11 i h
          rw [h2rule] at hk
          exact absurd hk (by decide)
        · have hk := rule12_rule raw.hasScriptTag i h
          rw [h2rule] at hk
          exact absurd hk (by decide)
        · have hk := rule13_rule es ids i13 h13 i h
          rw [h2rule] at hk
          exact absurd hk (by decide)
        · have hk := rule16_rule doc es i h
          rw [h2rule] at hk
          exact absurd hk (by decide)

/-- A document with the legacy `http://www.schema.org` context. -/
def claim7doc : JObj :=
  [("@context", Json.str "http://www.schema.org"), ("@type", Json.str "Thing")]

def claim7raw : RawText := { parse := some (Json.obj claim7doc), hasScriptTag := false }

/-- The result of validating `claim7doc` (total: no telephone, no raise). -/
def claim7res : VResult := (validate_jsonld claim7raw none).getD (_result [] [] none)

/-- Witness for C7 at a concrete input: the legacy-context document is
normalized to the canonical context with exactly one auto-fix and no rule-2
FAIL. -/
theorem claim7_context_normalization_witness :
    (∃ d1, claim7res.parsed = some (Json.obj d1) ∧
        lookupKey d1 "@context" = some (Json.str CANONICAL_CONTEXT)) ∧
    claim7res.auto_fixes.count ctxFixMsg = 1 ∧
    (∀ i ∈ claim7res.issues, i.rule = 2 → i.sev ≠ "FAIL") :=
  claim7_context_normalization claim7raw none claim7doc "http://www.schema.org" claim7res
    (by decide) (by decide) (by decide) (by decide)
